import Mathlib

set_option linter.unusedVariables false

/-
Verification development for the execution core of an angr-based binary
symbolic-execution platform.

Shallow embeddings, translated from the repository sources:
  * StateModel   - SimState from src/angr/angr/sim_state.py
                   (constraint management, merge, widen, the scoped global
                   condition) and the conditional-exit statement handling plus
                   the top-level process loop from
                   src/angr/angr/engines/vex/engine.py.
  * LiftModel    - SimEngineVEX.lift and its LRU block cache from
                   src/angr/angr/engines/vex/engine.py.
  * GlobalsModel - SimStateGlobals from src/angr/angr/state_plugins/globals.py.

External collaborators (claripy expression algebra, concrete plugin classes,
pyvex, cachetools) are modelled by oracle parameters or small concrete types;
each such modelling choice is noted next to the definition it concerns.
-/

namespace Spec2Proof

/-- State options from angr sim_options, as referenced by the embedded code. -/
inductive SimOption where
  | TRACK_CONSTRAINTS
  | SIMPLIFY_CONSTRAINTS
  | TRACK_CONSTRAINT_ACTIONS
  | ABSTRACT_SOLVER
  | SYMBOLIC
  | IGNORE_MERGE_CONDITIONS
  | IGNORE_EXIT_GUARDS
  | STRICT_PAGE_ACCESS
  | ENABLE_NX
  | OPTIMIZE_IR
  | SUPER_FASTPATH
  | BYPASS_UNSUPPORTED_IRDIRTY
  | DO_RET_EMULATION
  | TRUE_RET_EMULATION_GUARD
  | CALLLESS
  | ABSTRACT_MEMORY
  deriving DecidableEq, Repr

/-- Claripy boolean/bitvector abstract syntax trees, as far as the embedded
code builds them: symbolic bitvectors (BVS), concrete bitvectors (BVV),
equality tests, n-ary conjunction and disjunction (the claripy And and Or
star-argument operators), negation, and the true/false literals. -/
inductive Expr where
  | tt
  | ff
  | bvs (name : String) (idx : Nat) (width : Nat)
  | bvv (val : Nat) (width : Nat)
  | eq (a b : Expr)
  | andAll (es : List Expr)
  | orAll (es : List Expr)
  | nt (a : Expr)

/-- Association-list lookup, returning the first binding: the model of Python
dict indexing used for plugin maps, block caches and the globals backer. -/
def alookup {κ α : Type} [DecidableEq κ] : List (κ × α) → κ → Option α
  | [], _ => none
  | (k, v) :: rest, k2 => if k = k2 then some v else alookup rest k2

/-- Remove the first binding of a key from an association list. -/
def aeraseKey {κ α : Type} [DecidableEq κ] : List (κ × α) → κ → List (κ × α)
  | [], _ => []
  | (k, v) :: rest, k2 => if k = k2 then rest else (k, v) :: aeraseKey rest k2

/-- Python dict assignment: update the binding in place when the key is
present, append a fresh binding otherwise (dict insertion order). -/
def aset {κ α : Type} [DecidableEq κ] : List (κ × α) → κ → α → List (κ × α)
  | [], k, v => [(k, v)]
  | (k1, v1) :: rest, k, v => if k1 = k then (k, v) :: rest else (k1, v1) :: aset rest k v

/-- First defined value in a list of options. -/
def firstSome {α : Type} : List (Option α) → Option α
  | [] => none
  | some v :: _ => some v
  | none :: rest => firstSome rest

namespace GlobalsModel

/-- SimStateGlobals (src/angr/angr/state_plugins/globals.py): a key-value
plugin whose backer is a Python dict, modelled as an association list in
insertion order. -/
structure SimStateGlobals (K V : Type) where
  backer : List (K × V)

/-- Inner loop of SimStateGlobals.merge (globals.py lines 20-23): iterate the
keys of one other state in order; a key absent from the accumulator is copied
over (dict lookup in the unchanged other state), a key already present is left
alone. -/
def globKeysLoop {K V : Type} [DecidableEq K] (other : SimStateGlobals K V) :
    List K → SimStateGlobals K V → SimStateGlobals K V
  | [], acc => acc
  | k :: ks, acc =>
    globKeysLoop other ks
      (if (alookup acc.backer k).isSome then acc
       else
         match alookup other.backer k with
         | some v => ⟨acc.backer ++ [(k, v)]⟩
         | none => acc)

/-- Outer loop of SimStateGlobals.merge: visit the other states in order. -/
def globOthersLoop {K V : Type} [DecidableEq K] :
    List (SimStateGlobals K V) → SimStateGlobals K V → SimStateGlobals K V
  | [], acc => acc
  | o :: os, acc => globOthersLoop os (globKeysLoop o (o.backer.map Prod.fst) acc)

/-- SimStateGlobals.merge (globals.py lines 18-25): fold the key loops over
all other states and return True unconditionally.  The merge_conditions and
common_ancestor parameters are accepted and ignored, as in the source. -/
def SimStateGlobals.merge {K V : Type} [DecidableEq K] (self : SimStateGlobals K V)
    (others : List (SimStateGlobals K V)) (mergeConditions : List Expr)
    (commonAncestor : Option (SimStateGlobals K V)) : SimStateGlobals K V × Bool :=
  (globOthersLoop others self, true)

/-- SimStateGlobals.widen (globals.py lines 27-29): unimplemented, returns
False after logging a warning. -/
def SimStateGlobals.widen {K V : Type} (self : SimStateGlobals K V)
    (others : List (SimStateGlobals K V)) : Bool :=
  false

end GlobalsModel

namespace StateModel

/-- Operations of the external collaborators of SimState, per plugin instance
of an abstract plugin type P: the generic plugin contract (copy, merge, widen,
default construction, class tags), the solver plugin operations the embedded
code calls (add, simplify, is_false, is_true, symbolic, satisfiable), the VSA
backend checks, and the history bookkeeping.  merge and widen dispatch on the
plugin name, modelling per-class method dispatch. -/
structure PluginOps (P : Type) where
  copy : P → P
  mergeP : String → P → List P → List Expr → Option P → P × Bool
  widenP : String → P → List P → P × Bool
  newDefault : String → P
  cls : P → String
  newOfCls : String → P
  solverAdd : P → List Expr → P
  solverAdded : P → List Expr → List Expr
  simplifyE : P → Expr → Expr
  isFalse : P → Expr → Bool
  isTrue : P → Expr → Bool
  vsaIsFalse : Expr → Bool
  vsaIsTrue : Expr → Bool
  symbolic : P → Expr → Bool
  realSat : P → List Expr → Bool
  setHistParent : P → P → P
  addAction : P → Expr → P
  histAppendInsAddr : P → Nat → P
  narrow : Expr → P → P

/-- SimState (sim_state.py): architecture name, option set, the plugin map
(dict from plugin name to plugin instance, insertion ordered), the direct
attributes _satisfiable and _global_condition, and the fields of the scratch
plugin that the embedded engine code reads and writes (guard, stmt_idx,
ins_addr, num_insns, dirty_addrs); the scratch plugin is modelled by these
dedicated fields rather than through the opaque plugin map. -/
structure SimState (P : Type) where
  archName : String
  options : List SimOption
  plugins : List (String × P)
  satFlag : Bool
  globalCondition : Option Expr
  scratchGuard : Expr
  scratchStmtIdx : Nat
  scratchInsAddr : Nat
  scratchNumInsns : Nat
  scratchDirtyAddrs : List Nat

/-- Errors raised by the embedded code: SimMergeError (split by its message),
SimStateError from copy, KeyError from direct plugin-dict indexing,
SimReliftException (carrying the state, engine.py line 337), SimEngineError,
SimIRSBError, SimSegfaultError, and a fuel marker for the unbounded retry
loop of the source. -/
inductive SimErr (P : Type) where
  | mergeArch
  | widenPlugins
  | widenArch
  | mergePluginClasses (name : String)
  | stateCopy
  | keyError
  | reliftEx (s : SimState P)
  | engineErr (msg : String)
  | irsbEmpty
  | segfault (addr : Nat) (reason : String)
  | outOfFuel

/-- SimState.get_plugin (sim_state.py lines 289-294): return the registered
plugin, or default-construct, register (dict insertion at the end) and return
a fresh one. -/
def SimState.getPlugin {P : Type} (ops : PluginOps P) (st : SimState P) (name : String) :
    P × SimState P :=
  match alookup st.plugins name with
  | some p => (p, st)
  | none =>
    let p := ops.newDefault name
    (p, { st with plugins := st.plugins ++ [(name, p)] })

/-- Overwrite (or register) one plugin binding of a state. -/
def SimState.setPlugin {P : Type} (st : SimState P) (name : String) (p : P) : SimState P :=
  { st with plugins := aset st.plugins name p }

/-- The solver plugin instance a self.se access yields: the registered
solver_engine plugin, or the default-constructed one that the access would
register. -/
def seOf {P : Type} (ops : PluginOps P) (st : SimState P) : P :=
  (alookup st.plugins "solver_engine").getD (ops.newDefault "solver_engine")

/-- The attribute initialization of SimState.__init__ (sim_state.py lines
50-116) as far as the embedded fields go: _satisfiable starts True and
_global_condition starts None.  The scratch fields take the defaults of a
fresh scratch plugin.  Automatic registration of memory/register plugins is
outside the embedded fields (those plugin classes are not under src). -/
def SimState.new {P : Type} (arch : String) (opts : List SimOption)
    (plugins : List (String × P)) : SimState P :=
  { archName := arch
    options := opts
    plugins := plugins
    satFlag := true
    globalCondition := none
    scratchGuard := Expr.tt
    scratchStmtIdx := 0
    scratchInsAddr := 0
    scratchNumInsns := 0
    scratchDirtyAddrs := [] }

/-- The state built by SimState.copy (sim_state.py lines 438-445) once the
global-condition precondition holds: a fresh SimState constructed over
independently copied plugins, same architecture, options and mode.  The
constructor resets _satisfiable to True and _global_condition to None (copy
does not carry them over); the scratch fields ride along inside the copied
scratch plugin. -/
def SimState.copyPure {P : Type} (ops : PluginOps P) (self : SimState P) : SimState P :=
  { SimState.new self.archName self.options
      (self.plugins.map (fun e => (e.1, ops.copy e.2))) with
    scratchGuard := self.scratchGuard
    scratchStmtIdx := self.scratchStmtIdx
    scratchInsAddr := self.scratchInsAddr
    scratchNumInsns := self.scratchNumInsns
    scratchDirtyAddrs := self.scratchDirtyAddrs }

/-- SimState.copy (sim_state.py lines 430-445): raises SimStateError when a
global condition is still active, otherwise returns the fresh copy. -/
def SimState.copy {P : Type} (ops : PluginOps P) (self : SimState P) :
    Except (SimErr P) (SimState P) :=
  if self.globalCondition.isSome then Except.error SimErr.stateCopy
  else Except.ok (SimState.copyPure ops self)

/-- First phase of SimState.add_constraints (sim_state.py lines 328-353): when
constraint tracking is on and arguments were passed, optionally simplify them,
hand them to the solver plugin (se.add) and, when action tracking is on,
record one history action per added constraint; otherwise fall back to the
legacy action-only logic guarded by the action keyword argument.  The
before/after inspection breakpoints around the addition are modelled as
non-rewriting. -/
def trackPhase {P : Type} (ops : PluginOps P) (st : SimState P) (args : List Expr)
    (actionKw : Bool) : SimState P :=
  if SimOption.TRACK_CONSTRAINTS ∈ st.options ∧ 0 < args.length then
    let se := (st.getPlugin ops "solver_engine").1
    let st1 := (st.getPlugin ops "solver_engine").2
    let constraints :=
      if SimOption.SIMPLIFY_CONSTRAINTS ∈ st1.options then args.map (ops.simplifyE se) else args
    let added := ops.solverAdded se constraints
    let st2 := st1.setPlugin "solver_engine" (ops.solverAdd se constraints)
    if SimOption.TRACK_CONSTRAINT_ACTIONS ∈ st2.options then
      let hist := (st2.getPlugin ops "history").1
      let st3 := (st2.getPlugin ops "history").2
      st3.setPlugin "history" (added.foldl (fun h c => ops.addAction h c) hist)
    else st2
  else
    if actionKw ∧ SimOption.TRACK_CONSTRAINT_ACTIONS ∈ st.options ∧ 0 < args.length then
      let se := (st.getPlugin ops "solver_engine").1
      let st1 := (st.getPlugin ops "solver_engine").2
      let hist := (st1.getPlugin ops "history").1
      let st2 := (st1.getPlugin ops "history").2
      st2.setPlugin "history"
        ((args.filter (fun a => ops.symbolic se a)).foldl (fun h c => ops.addAction h c) hist)
    else st

/-- Value-set narrowing by one unresolved constraint (sim_state.py lines
374-393): replace_all over the registers plugin and over every memory region,
modelled as opaque narrowing of the registers and memory plugins. -/
def narrowStep {P : Type} (ops : PluginOps P) (a : Expr) (st : SimState P) : SimState P :=
  let regs := (st.getPlugin ops "registers").1
  let st2 := (st.getPlugin ops "registers").2
  let st3 := st2.setPlugin "registers" (ops.narrow a regs)
  let mem := (st3.getPlugin ops "memory").1
  let st4 := (st3.getPlugin ops "memory").2
  st4.setPlugin "memory" (ops.narrow a mem)

/-- The ABSTRACT_SOLVER loop of add_constraints (sim_state.py lines 355-393):
for each argument, a decidably false constraint flips _satisfiable to False
and stops; a decidably true one is skipped; the VSA backend is consulted as a
second opinion; an undecided constraint is applied by the narrowing step. -/
def absScan {P : Type} (ops : PluginOps P) : SimState P → List Expr → SimState P
  | st, [] => st
  | st, a :: rest =>
    let se := (st.getPlugin ops "solver_engine").1
    let st1 := (st.getPlugin ops "solver_engine").2
    if ops.isFalse se a then { st1 with satFlag := false }
    else if ops.isTrue se a then absScan ops st1 rest
    else if ops.vsaIsFalse a then { st1 with satFlag := false }
    else if ops.vsaIsTrue a then absScan ops st1 rest
    else absScan ops (narrowStep ops a st1) rest

/-- The non-symbolic loop of add_constraints (sim_state.py lines 394-398):
when SYMBOLIC is absent, only decidable falsity is checked; the first false
constraint flips _satisfiable to False and stops. -/
def symScan {P : Type} (ops : PluginOps P) : SimState P → List Expr → SimState P
  | st, [] => st
  | st, a :: rest =>
    let se := (st.getPlugin ops "solver_engine").1
    let st1 := (st.getPlugin ops "solver_engine").2
    if ops.isFalse se a then { st1 with satFlag := false }
    else symScan ops st1 rest

/-- SimState.add_constraints (sim_state.py lines 319-398): the tracking phase
followed by the ABSTRACT_SOLVER loop, or by the non-symbolic falsity check
when ABSTRACT_SOLVER is not set and SYMBOLIC is absent.  The variadic
positional arguments are the args list; the action keyword argument is
actionKw. -/
def SimState.add_constraints {P : Type} (ops : PluginOps P) (st : SimState P)
    (args : List Expr) (actionKw : Bool) : SimState P :=
  let st2 := trackPhase ops st args actionKw
  if SimOption.ABSTRACT_SOLVER ∈ st2.options ∧ 0 < args.length then absScan ops st2 args
  else if SimOption.SYMBOLIC ∉ st2.options ∧ 0 < args.length then symScan ops st2 args
  else st2

/-- SimState.satisfiable (sim_state.py lines 400-412): in abstract-solver mode
or when SYMBOLIC is absent, return False as soon as one extra constraint is
decidably false and otherwise the cached _satisfiable flag; in ordinary mode
consult the real solver with the remaining keyword arguments. -/
def SimState.satisfiable {P : Type} (ops : PluginOps P) (st : SimState P)
    (extraConstraints : List Expr) : Bool :=
  if SimOption.ABSTRACT_SOLVER ∈ st.options ∨ SimOption.SYMBOLIC ∉ st.options then
    if extraConstraints.any (fun e => ops.isFalse (seOf ops st) e) then false
    else st.satFlag
  else ops.realSat (seOf ops st) extraConstraints

/-- The merge conditions synthesized by SimState.merge when none are supplied
(sim_state.py lines 469-472): one fresh 16-bit discriminant variable
state_merge_ctr, and one equality test against each value in
range(len(others)+1). -/
def synthConditions (ctr : Nat) (numOthers : Nat) : List Expr :=
  (List.range (numOthers + 1)).map (fun b => Expr.eq (Expr.bvs "state_merge" ctr 16) (Expr.bvv b 16))

/-- The set of concrete plugin classes found at one plugin name across the
merged state and the others, with missing instances dropped (sim_state.py
lines 498-500). -/
def mergeClasses {P : Type} (ops : PluginOps P) (others : List (SimState P))
    (merged : SimState P) (p : String) : List String :=
  ((alookup merged.plugins p :: others.map (fun t => alookup t.plugins p)).filterMap
    (fun x => x.map ops.cls)).dedup

/-- The registration step for a possibly missing receiver plugin
(sim_state.py lines 507-509): keep the existing instance, or construct the
shared class and register it. -/
def fillOur {P : Type} (merged : SimState P) (p : String) (our : Option P) (c : P) :
    SimState P × P :=
  match our with
  | some pl => (merged, pl)
  | none => (merged.setPlugin p c, c)

/-- The common-ancestor plugin handed to a plugin merge (sim_state.py lines
516-520): the plugin of the ancestor state when both exist. -/
def ancestorPlugin {P : Type} (anc : Option (SimState P)) (p : String) : Option P :=
  anc.bind (fun a2 => alookup a2.plugins p)

/-- One iteration of the plugin loop of SimState.merge (sim_state.py lines
494-524) for plugin name p: collect the plugin instances of the merged state
and the others, check that exactly one concrete plugin class is present
(ignoring missing instances), default-construct that class where an instance
is missing, delegate to the plugin merge, and store the result. -/
def mergeOnePlugin {P : Type} (ops : PluginOps P) (conds : List Expr)
    (anc : Option (SimState P)) (others : List (SimState P)) (merged : SimState P)
    (p : String) : Except (SimErr P) (SimState P × Bool) :=
  if (mergeClasses ops others merged p).length ≠ 1 then
    Except.error (SimErr.mergePluginClasses p)
  else
    let c := (mergeClasses ops others merged p).headD ""
    let step := fillOur merged p (alookup merged.plugins p) (ops.newOfCls c)
    let theirFilled :=
      (others.map (fun t => alookup t.plugins p)).map (fun tp => tp.getD (ops.newOfCls c))
    let res := ops.mergeP p step.2 theirFilled conds (ancestorPlugin anc p)
    Except.ok (step.1.setPlugin p res.1, res.2)

/-- The plugin loop of SimState.merge over the union of plugin names,
accumulating the merging_occurred flag. -/
def mergePluginsLoop {P : Type} (ops : PluginOps P) (conds : List Expr)
    (anc : Option (SimState P)) (others : List (SimState P)) :
    List String → SimState P → Bool → Except (SimErr P) (SimState P × Bool)
  | [], merged, occ => Except.ok (merged, occ)
  | p :: rest, merged, occ =>
    match mergeOnePlugin ops conds anc others merged p with
    | Except.error e => Except.error e
    | Except.ok r => mergePluginsLoop ops conds anc others rest r.1 (occ || r.2)

/-- The whitelist restriction of the plugin-name union (sim_state.py lines
484-485): intersect with the whitelist when one is given. -/
def applyWhitelist (pluginWhitelist : Option (List String)) (names : List String) :
    List String :=
  match pluginWhitelist with
  | some wl => names.filter (fun p => p ∈ wl)
  | none => names

/-- SimState.merge (sim_state.py lines 447-527).  ctr is the next value of the
module-level merge_counter.  Steps, in source order: synthesize or normalize
the merge conditions; fail unless the other states share exactly one
architecture name (the receiver is not consulted); compute the union of
plugin names, optionally intersected with the whitelist; copy the receiver;
reparent the history of the copy; run the plugin loop; finally constrain the
merged state with the disjunction of the merge conditions and return it with
the conditions and the merging_occurred flag.  The set iteration order of the
plugin-name union is modelled as first-appearance order. -/
def SimState.merge {P : Type} (ops : PluginOps P) (ctr : Nat) (self : SimState P)
    (others : List (SimState P)) (mergeConditions : Option (List (List Expr)))
    (commonAncestor : Option (SimState P)) (pluginWhitelist : Option (List String)) :
    Except (SimErr P) (SimState P × List Expr × Bool) :=
  let mergeConds :=
    if mergeConditions.isNone ∨ SimOption.IGNORE_MERGE_CONDITIONS ∈ self.options then
      synthConditions ctr others.length
    else
      (mergeConditions.getD []).map (fun mc => if mc.length = 0 then Expr.tt else Expr.andAll mc)
  if ((others.map (fun o2 => o2.archName)).dedup).length ≠ 1 then Except.error SimErr.mergeArch
  else
    let allPlugins0 :=
      ((self.plugins.map Prod.fst) ++ (others.map (fun o2 => o2.plugins.map Prod.fst)).flatten).dedup
    let allPlugins := applyWhitelist pluginWhitelist allPlugins0
    match SimState.copy ops self with
    | Except.error e => Except.error e
    | Except.ok merged0 =>
      let mHist := (merged0.getPlugin ops "history").1
      let merged1 := (merged0.getPlugin ops "history").2
      let selfHist := (self.getPlugin ops "history").1
      let merged2 := merged1.setPlugin "history" (ops.setHistParent mHist selfHist)
      match mergePluginsLoop ops mergeConds commonAncestor others allPlugins merged2 false with
      | Except.error e => Except.error e
      | Except.ok r =>
        Except.ok (SimState.add_constraints ops r.1 [Expr.orAll mergeConds] false, mergeConds, r.2)

/-- True when all the given states have the same plugin-name set: the model of
len(set(frozenset(o.plugins.keys()) for o in others)) == 1 with frozenset
equality taken extensionally. -/
def sameKeySets {P : Type} (others : List (SimState P)) : Bool :=
  match others with
  | [] => false
  | o :: rest =>
    rest.all (fun o2 =>
      (o.plugins.map Prod.fst).all (fun k => k ∈ o2.plugins.map Prod.fst) &&
      (o2.plugins.map Prod.fst).all (fun k => k ∈ o.plugins.map Prod.fst))

/-- The plugin loop of SimState.widen (sim_state.py lines 545-551): iterate
the plugin names of the receiver, skip solver_engine and unicorn, delegate to
the plugin widen (direct dict indexing into the other states raises KeyError
on a missing name) and accumulate the widening_occurred flag. -/
def widenLoop {P : Type} (ops : PluginOps P) (others : List (SimState P)) :
    List String → SimState P → Bool → Except (SimErr P) (SimState P × Bool)
  | [], widened, occ => Except.ok (widened, occ)
  | p :: rest, widened, occ =>
    if p = "solver_engine" ∨ p = "unicorn" then widenLoop ops others rest widened occ
    else
      match alookup widened.plugins p with
      | none => Except.error SimErr.keyError
      | some wp =>
        match (others.mapM (fun o2 => alookup o2.plugins p) : Option (List P)) with
        | none => Except.error SimErr.keyError
        | some theirPlugins =>
          let res := ops.widenP p wp theirPlugins
          widenLoop ops others rest (widened.setPlugin p res.1) (occ || res.2)

/-- SimState.widen (sim_state.py lines 529-553): fail unless the other states
share one plugin-name set and one architecture name, copy the receiver, then
run the widening plugin loop over the plugin names of the receiver. -/
def SimState.widen {P : Type} (ops : PluginOps P) (self : SimState P)
    (others : List (SimState P)) : Except (SimErr P) (SimState P × Bool) :=
  if ¬ sameKeySets others then Except.error SimErr.widenPlugins
  else if ((others.map (fun o2 => o2.archName)).dedup).length ≠ 1 then Except.error SimErr.widenArch
  else
    match SimState.copy ops self with
    | Except.error e => Except.error e
    | Except.ok widened => widenLoop ops others (self.plugins.map Prod.fst) widened false

/-- Assignment to the _global_condition attribute. -/
def SimState.setGC {P : Type} (st : SimState P) (g : Option Expr) : SimState P :=
  { st with globalCondition := g }

/-- The condition the scope installs on entry (sim_state.py line 744): the new
condition alone when none is active, the claripy conjunction of the active
condition with the new one otherwise. -/
def enterCondition {P : Type} (st : SimState P) (c : Expr) : Expr :=
  match st.globalCondition with
  | none => c
  | some g => Expr.andAll [g, c]

/-- SimState.with_condition (sim_state.py lines 738-750): a context manager
that saves the active global condition, installs the new one (conjoined with
the old one when one is active), runs the body, and restores the saved
condition in a finally block, so restoration happens on the normal exit and on
the error exit alike.  The body is any state transformer that may also fail;
its Except result is passed through unchanged. -/
def SimState.with_condition {P A : Type} (st : SimState P) (c : Expr)
    (body : SimState P → SimState P × Except (SimErr P) A) :
    SimState P × Except (SimErr P) A :=
  let oldCondition := st.globalCondition
  let newCondition := enterCondition st c
  let r := body (st.setGC (some newCondition))
  (r.1.setGC oldCondition, r.2)

/-- The statement shapes distinguished by SimEngineVEX._handle_statement
(engine.py lines 325-396): instruction marks with their address fields,
conditional exits, and everything else.  The IR payload of an exit is opaque
here; its translation is supplied by an oracle. -/
inductive VexStmt where
  | imark (addr : Nat) (delta : Nat) (len : Nat)
  | exitStmt
  | other

/-- The translated form of a conditional-exit statement: guard, target and
jump kind, as produced by translate_stmt. -/
structure StmtResult where
  guard : Expr
  target : Expr
  jumpkind : String

/-- One successor record as handed to SimSuccessors.add_successor: the copied
exit state, target, guard, jump kind, exit statement index and exit
instruction address.  The classification done inside add_successor lives
outside the embedded sources and is not modelled. -/
structure Successor (P : Type) where
  state : SimState P
  target : Expr
  guard : Expr
  jumpkind : String
  exitStmtIdx : Nat
  exitInsAddr : Nat

/-- SimEngineVEX._handle_statement (engine.py lines 325-396).  For an
instruction mark: record the instruction address in the scratch, raise
SimReliftException when any byte of the upcoming instruction is in the dirty
set (self-modifying code), bump the instruction counter and append the
address to the history.  Then translate the statement (the trans oracle
stands for translate_stmt together with its action bookkeeping; for an exit
it yields the translated guard/target/jumpkind).  For a conditional exit:
copy the state and record a branch successor; without IGNORE_EXIT_GUARDS the
negated exit guard is added to the state constraints and conjoined onto the
running scratch guard; with IGNORE_EXIT_GUARDS the successor is still
recorded and the scratch guard is still conjoined with the negated exit
guard, but add_constraints is not called. -/
def handle_statement {P : Type} (ops : PluginOps P)
    (trans : VexStmt → SimState P → SimState P × Option StmtResult)
    (st : SimState P) (succs : List (Successor P)) (stmt : VexStmt) :
    Except (SimErr P) (SimState P × List (Successor P)) :=
  let imarkStep : Except (SimErr P) (SimState P) :=
    match stmt with
    | VexStmt.imark a d len =>
      let insAddr := a + d
      let st1 : SimState P := { st with scratchInsAddr := insAddr }
      if (List.range len).any (fun subaddr => (subaddr + a) ∈ st1.scratchDirtyAddrs) then
        Except.error (SimErr.reliftEx st1)
      else
        let st2 : SimState P := { st1 with scratchNumInsns := st1.scratchNumInsns + 1 }
        let hist := (st2.getPlugin ops "history").1
        let st3 := (st2.getPlugin ops "history").2
        Except.ok (st3.setPlugin "history" (ops.histAppendInsAddr hist insAddr))
    | _ => Except.ok st
  match imarkStep with
  | Except.error e => Except.error e
  | Except.ok stA =>
    let tr := trans stmt stA
    let stB := tr.1
    match stmt, tr.2 with
    | VexStmt.exitStmt, some sStmt =>
      (match SimState.copy ops stB with
       | Except.error e => Except.error e
       | Except.ok exitState =>
         if SimOption.IGNORE_EXIT_GUARDS ∉ stB.options then
           let succs1 := succs ++
             [⟨exitState, sStmt.target, sStmt.guard, sStmt.jumpkind,
               stB.scratchStmtIdx, stB.scratchInsAddr⟩]
           let contCondition := Expr.nt sStmt.guard
           let stC := SimState.add_constraints ops stB [contCondition] false
           let stD : SimState P :=
             { stC with scratchGuard := Expr.andAll [stC.scratchGuard, contCondition] }
           Except.ok (stD, succs1)
         else
           let succs1 := succs ++
             [⟨exitState, sStmt.target, sStmt.guard, sStmt.jumpkind,
               stB.scratchStmtIdx, stB.scratchInsAddr⟩]
           let stC : SimState P :=
             { stB with scratchGuard := Expr.andAll [stB.scratchGuard, Expr.nt sStmt.guard] }
           Except.ok (stC, succs1)
       )
    | _, _ => Except.ok (stB, succs)

/-- A lifted IR block as far as the engine loop inspects it: the instruction
mark addresses in order, a byte size, and an identity tag so that distinct
lifter outputs are distinguishable values. -/
structure Block where
  insAddrs : List Nat
  size : Nat
  uid : Nat
  deriving DecidableEq, Repr

/-- Step 1 of the retry loop of _process (engine.py lines 119-128): use the
supplied block or lift one at the current address. -/
def getIrsb {P : Type}
    (lifterO : Nat → Option (List Nat) → Option Nat → Option Nat → Except (SimErr P) Block)
    (insnBytes : Option (List Nat)) (irsbOpt : Option Block) (addr : Nat)
    (size numInst : Option Nat) : Except (SimErr P) Block :=
  match irsbOpt with
  | some b => Except.ok b
  | none => lifterO addr insnBytes size numInst

/-- The body of the retry loop of SimEngineVEX._process (engine.py lines
118-169), with fuel standing in for the unbounded while loop.  lifterO is
self.lift for the current data sources; handler is _handle_irsb, whose
SimReliftException surfaces as the reliftEx error; permsOK is the
STRICT_PAGE_ACCESS permission oracle (False meaning a page that is unmapped
or non-executable).  On a relift: a pending insn_bytes override raises
SimEngineError; otherwise the size and instruction budgets are reduced by
what was consumed, the dirty-address set is cleared and the loop re-lifts
from the new instruction address. -/
def processLoop {P : Type} (ops : PluginOps P)
    (lifterO : Nat → Option (List Nat) → Option Nat → Option Nat → Except (SimErr P) Block)
    (handler : SimState P → Block → Except (SimErr P) (SimState P))
    (permsOK : Nat → Bool) (insnBytes : Option (List Nat)) :
    Nat → SimState P → Option Block → Nat → Option Nat → Option Nat →
    Except (SimErr P) (SimState P)
  | 0, _, _, _, _, _ => Except.error SimErr.outOfFuel
  | fuel + 1, st, irsbOpt, addr, size, numInst =>
    match getIrsb lifterO insnBytes irsbOpt addr size numInst with
    | Except.error e => Except.error e
    | Except.ok irsb =>
      if irsb.size = 0 then Except.error SimErr.irsbEmpty
      else if SimOption.STRICT_PAGE_ACCESS ∈ st.options ∧ ¬ permsOK addr then
        Except.error (SimErr.segfault addr "exec-perm")
      else
        match handler st irsb with
        | Except.error (SimErr.reliftEx s) =>
          if insnBytes.isSome then
            Except.error (SimErr.engineErr "You cannot pass self-modifying code as insn_bytes!!!")
          else
            let newIp := s.scratchInsAddr
            let size1 := size.map (fun sz => sz - (newIp - addr))
            let numInst1 := numInst.map (fun ni => ni - s.scratchNumInsns)
            let s1 : SimState P := { s with scratchDirtyAddrs := [] }
            processLoop ops lifterO handler permsOK insnBytes fuel s1 none newIp size1 numInst1
        | Except.error e => Except.error e
        | Except.ok s2 => Except.ok s2

/-- SimEngineVEX._process (engine.py lines 109-172): reset the scratch guard
to true, run the retry loop at the successor address, and mark the successors
processed.  The successors bookkeeping fields (sort, description,
recent_block_count) are artifacts with no bearing on the embedded control
flow. -/
def process {P : Type} (ops : PluginOps P)
    (lifterO : Nat → Option (List Nat) → Option Nat → Option Nat → Except (SimErr P) Block)
    (handler : SimState P → Block → Except (SimErr P) (SimState P))
    (permsOK : Nat → Bool) (fuel : Nat) (st0 : SimState P) (irsbOpt : Option Block)
    (insnBytes : Option (List Nat)) (size numInst : Option Nat) (addr : Nat) :
    Except (SimErr P) (SimState P × Bool) :=
  let st : SimState P := { st0 with scratchGuard := Expr.tt }
  match processLoop ops lifterO handler permsOK insnBytes fuel st irsbOpt addr size numInst with
  | Except.error e => Except.error e
  | Except.ok s => Except.ok (s, true)

end StateModel

namespace LiftModel

/-- VEX_IRSB_MAX_SIZE (engine.py line 26): absolute maximum block size. -/
def VEX_IRSB_MAX_SIZE : Nat := 400

/-- VEX_IRSB_MAX_INST (engine.py line 27): absolute maximum instruction
count. -/
def VEX_IRSB_MAX_INST : Nat := 99

/-- The cache key of SimEngineVEX.lift (engine.py line 484): address, explicit
byte override, size, instruction cap, thumb flag and optimization level, all
post-normalization. -/
structure CacheKey where
  addr : Nat
  insnBytes : Option (List Nat)
  size : Nat
  numInst : Option Nat
  thumb : Nat
  optLevel : Int
  deriving DecidableEq, Repr

/-- The mutable parts of SimEngineVEX that lift touches: configuration
(stop points, cache switch and size, default optimization level,
self-modifying-code support, single stepping) plus the block cache and the
hit/miss counters. -/
structure Engine where
  stopPoints : Option (List Nat)
  useCache : Bool
  cacheSize : Nat
  defaultOptLevel : Int
  supportSMC : Bool
  singleStep : Bool
  blockCache : List (CacheKey × StateModel.Block)
  cacheHits : Nat
  cacheMisses : Nat
  deriving DecidableEq, Repr

/-- Cache lookup.  The block cache is the external cachetools LRUCache,
modelled as an association list ordered most recently used first. -/
def cacheLookup (c : List (CacheKey × StateModel.Block)) (k : CacheKey) :
    Option StateModel.Block :=
  alookup c k

/-- The recency update a cachetools LRUCache getitem performs on a hit: move
the binding to the front.  The key-to-block mapping is unchanged. -/
def cacheTouch (c : List (CacheKey × StateModel.Block)) (k : CacheKey) :
    List (CacheKey × StateModel.Block) :=
  match alookup c k with
  | none => c
  | some b => (k, b) :: aeraseKey c k

/-- A cachetools LRUCache setitem: replace any existing binding, insert at the
front, and evict least-recently-used entries beyond the capacity. -/
def cacheStore (c : List (CacheKey × StateModel.Block)) (k : CacheKey)
    (b : StateModel.Block) (maxSize : Nat) : List (CacheKey × StateModel.Block) :=
  ((k, b) :: aeraseKey c k).take maxSize

/-- SimEngineVEX._first_stoppoint (engine.py lines 594-611): the first
instruction mark after the first one whose address is a stop point, or none
when there are no stop points. -/
def firstStoppoint (stopPoints : Option (List Nat)) (b : StateModel.Block) : Option Nat :=
  match stopPoints with
  | none => none
  | some sps =>
    match b.insAddrs with
    | [] => none
    | _ :: rest => rest.find? (fun a => decide (a ∈ sps))

/-- The caller-facing lift arguments (engine.py lines 398-408) that remain
once the state is fixed as the data/address/architecture source. -/
structure LiftArgs where
  addr : Option Nat
  insnBytes : Option (List Nat)
  size : Option Nat
  numInst : Option Nat
  thumb : Bool
  optLevel : Option Int
  deriving DecidableEq, Repr

/-- Python str.startswith, over the character sequences of the two strings. -/
def strStartsWith (s pre : String) : Bool :=
  pre.data.isPrefixOf s.data

/-- The effective single-step flag after the MIPS check of lift (engine.py
lines 445-447): single stepping is switched off on MIPS. -/
def effSingleStep (eng : Engine) (archName : String) : Bool :=
  if strStartsWith archName "MIPS" then false else eng.singleStep

/-- The size clamp of lift (engine.py lines 452-455): a supplied size is
clamped to the absolute maximum block size, an absent one defaults to it. -/
def clampSize : Option Nat → Nat
  | some s => min s VEX_IRSB_MAX_SIZE
  | none => VEX_IRSB_MAX_SIZE

/-- The instruction-cap clamp of lift (engine.py lines 456-459): a supplied
cap is clamped to the absolute maximum instruction count; an absent one
becomes one instruction under single stepping and otherwise stays absent (no
instruction cap is passed to the lifter). -/
def clampNumInst (singleStep : Bool) : Option Nat → Option Nat
  | some n => some (min n VEX_IRSB_MAX_INST)
  | none => if singleStep then some 1 else none

/-- The optimization-level resolution of lift (engine.py lines 460-464):
argument, else 1 when OPTIMIZE_IR is in the state options, else the engine
default. -/
def resolveOptLevel (eng : Engine) (stOpts : List SimOption) (a : Option Int) : Int :=
  match a with
  | some l => l
  | none => if SimOption.OPTIMIZE_IR ∈ stOpts then 1 else eng.defaultOptLevel

/-- The self-modifying-code adjustment of lift (engine.py lines 465-470): with
self-modification support and a positive optimization level, force level 0 and
drop OPTIMIZE_IR from the state options (set removal). -/
def smcAdjust (eng : Engine) (stOpts : List SimOption) (lvl : Int) : Int × List SimOption :=
  if eng.supportSMC ∧ 0 < lvl then
    (0, stOpts.filter (fun x => decide (x ≠ SimOption.OPTIMIZE_IR)))
  else (lvl, stOpts)

/-- The thumb normalization of lift (engine.py lines 472-481): on ARM an odd
address forces thumb and a thumb address has its low bit cleared; on other
architectures thumb is rejected with a warning and reset to 0. -/
def thumbNormalize (isArm : Bool) (addr : Nat) (thumb : Bool) : Nat × Nat :=
  if isArm then
    let t : Nat := if addr % 2 = 1 then 1 else (if thumb then 1 else 0)
    (if t ≠ 0 then addr - addr % 2 else addr, t)
  else (addr, 0)

/-- The outcome of the parameter phases of lift (phases 0 to 2): the engine
with the effective single-step flag, the possibly reduced state options, and
the normalized address, size, instruction cap, thumb flag and optimization
level. -/
structure PreOut where
  eng : Engine
  stOpts : List SimOption
  addr : Nat
  insnBytes : Option (List Nat)
  size : Nat
  numInst : Option Nat
  thumb : Nat
  optLevel : Int
  deriving DecidableEq, Repr

/-- Phases 0 to 2 of SimEngineVEX.lift (engine.py lines 436-481) with the
state present as data/address/architecture source: the sanity checks pass, the
MIPS single-step check runs, the parameter defaults and clamps are applied, and
the address is thumb-normalized. -/
def liftPre (eng0 : Engine) (archName : String) (isArm : Bool) (stOpts : List SimOption)
    (stIp : Nat) (a : LiftArgs) : PreOut :=
  let eng := { eng0 with singleStep := effSingleStep eng0 archName }
  let addr0 := a.addr.getD stIp
  let size := clampSize a.size
  let numInst := clampNumInst eng.singleStep a.numInst
  let lvl0 := resolveOptLevel eng stOpts a.optLevel
  let adj := smcAdjust eng stOpts lvl0
  let norm := thumbNormalize isArm addr0 a.thumb
  { eng := eng
    stOpts := adj.2
    addr := norm.1
    insnBytes := a.insnBytes
    size := size
    numInst := numInst
    thumb := norm.2
    optLevel := adj.1 }

/-- The kind of errors lift raises: SimEngineError for an empty byte range and
SimTranslationError for a lifter failure. -/
inductive LiftErr where
  | noBytes (addr : Nat)
  | translation
  deriving DecidableEq, Repr

/-- The conditional cache store of lift phase 5 (engine.py lines 530-531):
with caching enabled, store the block under the phase-3 cache key, evicting
least-recently-used entries beyond the capacity. -/
def storeIfCaching (eng : Engine) (cacheKey : CacheKey) (b : StateModel.Block) : Engine :=
  if eng.useCache then
    { eng with blockCache := cacheStore eng.blockCache cacheKey b eng.cacheSize }
  else eng

/-- Phases 4 and 5 of SimEngineVEX.lift (engine.py lines 503-542) for a given
cache key and current size: acquire bytes (explicit byte override first, else
the loadB oracle standing for _load_bytes over clemory/state memory), fail on
an empty range, call the external lifter (the lifter oracle standing for
pyvex.IRSB over buffer, address+thumb, size, instruction cap, byte offset and
optimization level), truncate and re-lift once when a stop point falls
strictly inside the first result, then store the block under the key computed
in phase 3 (the key is not recomputed after a subphase truncation) and return
it. -/
def liftFresh (loadB : Nat → Nat → List Nat × Nat)
    (lifter : List Nat → Nat → Nat → Option Nat → Nat → Int → Option StateModel.Block)
    (eng : Engine) (stOpts : List SimOption) (addr : Nat) (insnBytes : Option (List Nat))
    (size0 : Nat) (numInst : Option Nat) (thumb : Nat) (optLevel : Int)
    (cacheKey : CacheKey) : Except LiftErr (StateModel.Block × Engine × List SimOption) :=
  let acquired :=
    match insnBytes with
    | some b => (b, b.length)
    | none => loadB addr size0
  let buff := acquired.1
  let size := acquired.2
  if buff.length = 0 ∨ size = 0 then Except.error (LiftErr.noBytes addr)
  else
    match lifter buff (addr + thumb) size numInst thumb optLevel with
    | none => Except.error LiftErr.translation
    | some irsb =>
      match firstStoppoint eng.stopPoints irsb with
      | some sp =>
        let size1 := sp - addr
        match lifter buff (addr + thumb) size1 numInst thumb optLevel with
        | none => Except.error LiftErr.translation
        | some irsb2 => Except.ok (irsb2, storeIfCaching eng cacheKey irsb2, stOpts)
      | none => Except.ok (irsb, storeIfCaching eng cacheKey irsb, stOpts)

/-- SimEngineVEX.lift (engine.py lines 398-542) with the state as the
data/address/architecture source: the parameter phases, then the cache check
of phase 3 (on a hit with a stop point strictly inside the cached block, the
size is truncated and the cache is consulted again under the truncated key
before falling through to a fresh lift), then the fresh lift of phases 4 and
5. -/
def lift (loadB : Nat → Nat → List Nat × Nat)
    (lifter : List Nat → Nat → Nat → Option Nat → Nat → Int → Option StateModel.Block)
    (eng0 : Engine) (archName : String) (isArm : Bool) (stOpts : List SimOption)
    (stIp : Nat) (a : LiftArgs) : Except LiftErr (StateModel.Block × Engine × List SimOption) :=
  let p := liftPre eng0 archName isArm stOpts stIp a
  let eng := p.eng
  let key : CacheKey := ⟨p.addr, p.insnBytes, p.size, p.numInst, p.thumb, p.optLevel⟩
  if eng.useCache then
    match cacheLookup eng.blockCache key with
    | some irsb =>
      let engH := { eng with blockCache := cacheTouch eng.blockCache key,
                             cacheHits := eng.cacheHits + 1 }
      (match firstStoppoint engH.stopPoints irsb with
       | none => Except.ok (irsb, engH, p.stOpts)
       | some sp =>
         let size1 := sp - p.addr
         let key2 : CacheKey := ⟨p.addr, p.insnBytes, size1, p.numInst, p.thumb, p.optLevel⟩
         match cacheLookup engH.blockCache key2 with
         | some irsb2 =>
           Except.ok (irsb2, { engH with blockCache := cacheTouch engH.blockCache key2,
                                         cacheHits := engH.cacheHits + 1 }, p.stOpts)
         | none =>
           let engM := { engH with cacheMisses := engH.cacheMisses + 1 }
           liftFresh loadB lifter engM p.stOpts p.addr p.insnBytes size1 p.numInst p.thumb
             p.optLevel key2)
    | none =>
      let engM := { eng with cacheMisses := eng.cacheMisses + 1 }
      liftFresh loadB lifter engM p.stOpts p.addr p.insnBytes p.size p.numInst p.thumb
        p.optLevel key
  else
    let engM := { eng with cacheMisses := eng.cacheMisses + 1 }
    liftFresh loadB lifter engM p.stOpts p.addr p.insnBytes p.size p.numInst p.thumb
      p.optLevel key

end LiftModel

namespace StateModel

/-- Decidable-falsity check performed on one argument by the ABSTRACT_SOLVER
loop of add_constraints: the solver says false, or the solver is undecided and
the VSA backend says false. -/
def absDetFalse {P : Type} (ops : PluginOps P) (se : P) (a : Expr) : Bool :=
  ops.isFalse se a || (!ops.isTrue se a && ops.vsaIsFalse a)

end StateModel

/-- Boolean success test on an Except value. -/
def exceptOk {ε α : Type} : Except ε α → Bool
  | Except.ok _ => true
  | Except.error _ => false

namespace StateModel

/-- Trivial plugin operations over the unit plugin type, used to evaluate the
embedded functions on concrete inputs. -/
def opsU : PluginOps Unit :=
  { copy := fun _ => ()
    mergeP := fun _ _ _ _ _ => ((), false)
    widenP := fun _ _ _ => ((), false)
    newDefault := fun _ => ()
    cls := fun _ => "SimStatePlugin"
    newOfCls := fun _ => ()
    solverAdd := fun _ _ => ()
    solverAdded := fun _ cs => cs
    simplifyE := fun _ e => e
    isFalse := fun _ e => match e with | Expr.ff => true | _ => false
    isTrue := fun _ e => match e with | Expr.tt => true | _ => false
    vsaIsFalse := fun _ => false
    vsaIsTrue := fun _ => false
    symbolic := fun _ _ => false
    realSat := fun _ _ => true
    setHistParent := fun h _ => h
    addAction := fun h _ => h
    histAppendInsAddr := fun h _ => h
    narrow := fun _ p => p }

/-- Plugin operations over natural-number plugin contents, with a visible copy
action, used to evaluate widen on concrete inputs. -/
def opsN : PluginOps Nat :=
  { copy := fun p => p + 100
    mergeP := fun _ p _ _ _ => (p, false)
    widenP := fun _ _ _ => (0, false)
    newDefault := fun _ => 0
    cls := fun _ => "SimStatePlugin"
    newOfCls := fun _ => 0
    solverAdd := fun p _ => p
    solverAdded := fun _ cs => cs
    simplifyE := fun _ e => e
    isFalse := fun _ _ => false
    isTrue := fun _ _ => false
    vsaIsFalse := fun _ => false
    vsaIsTrue := fun _ => false
    symbolic := fun _ _ => false
    realSat := fun _ _ => true
    setHistParent := fun h _ => h
    addAction := fun h _ => h
    histAppendInsAddr := fun h _ => h
    narrow := fun _ p => p }

/-- Concrete exit guard for the conditional-exit evaluation. -/
def gC2 : Expr := Expr.bvs "cond" 0 1

/-- Translation oracle for the conditional-exit evaluation: every statement
translates to an exit with guard gC2. -/
def transC2 : VexStmt → SimState Unit → SimState Unit × Option StmtResult :=
  fun _ s => (s, some { guard := gC2, target := Expr.bvv 0 64, jumpkind := "Ijk_Boring" })

/-- Concrete state with the ignore-exit-guards policy active. -/
def stC2 : SimState Unit := SimState.new "AMD64" [SimOption.IGNORE_EXIT_GUARDS] []

/-- The translated exit statement transC2 produces. -/
def srC2 : StmtResult := { guard := gC2, target := Expr.bvv 0 64, jumpkind := "Ijk_Boring" }

/-- Concrete receiver state for the merge architecture check evaluation. -/
def stC3self : SimState Unit := SimState.new "AMD64" [] []

/-- Concrete other state, of a different architecture than stC3self. -/
def stC3other : SimState Unit := SimState.new "ARMEL" [] []

/-- Concrete receiver for the merge condition evaluation. -/
def stC1self : SimState Unit := SimState.new "AMD64" [] []

/-- Concrete other states for the merge condition evaluation. -/
def stC1other : SimState Unit := SimState.new "AMD64" [] []

/-- Concrete state in abstract-solver mode. -/
def stC6 : SimState Unit := SimState.new "AMD64" [SimOption.ABSTRACT_SOLVER] []

/-- Concrete receiver for the widen evaluation: a solver plugin and one
ordinary plugin. -/
def stC7self : SimState Nat :=
  SimState.new "X86" [] [("solver_engine", 5), ("globals", 7)]

/-- Concrete other state for the widen evaluation, with the same plugin-name
set and architecture. -/
def stC7other : SimState Nat :=
  SimState.new "X86" [] [("solver_engine", 1), ("globals", 2)]

/-- Alternative widen dispatch that misbehaves on the solver plugin only. -/
def gWidenC7 : String → Nat → List Nat → Nat × Bool :=
  fun n p ps => if n = "solver_engine" then (999, true) else opsN.widenP n p ps

/-- The widened state of the concrete widen evaluation: the solver plugin is
the plain copy of the receiver plugin, the globals plugin was widened. -/
def wC7 : SimState Nat := SimState.new "X86" [] [("solver_engine", 105), ("globals", 0)]

/-- The result of the concrete merge evaluation: the merged state carries the
reparented history plugin and the solver plugin registered by the final
constraint addition; the conditions are the synthesized ones; no plugin
reported a change. -/
def rC1 : SimState Unit × List Expr × Bool :=
  (SimState.new "AMD64" [] [("history", ()), ("solver_engine", ())], synthConditions 7 2, false)

/-- Concrete body for the scoped-condition evaluation: mutates the state and
fails. -/
def bodyC9 : SimState Unit → SimState Unit × Except (SimErr Unit) Nat :=
  fun s => ({ s with satFlag := false, globalCondition := some Expr.ff }, Except.error SimErr.keyError)

/-- Concrete state for the scoped-condition evaluation, with a condition
already active. -/
def stC9 : SimState Unit :=
  { SimState.new "AMD64" [] [] with globalCondition := some (Expr.bvs "g0" 0 1) }

/-- Concrete condition installed by the scoped-condition evaluation. -/
def cC9 : Expr := Expr.bvs "c9" 0 1

/-- The state bodyC9 leaves behind when entered from stC9 under cC9. -/
def s2C9 : SimState Unit :=
  { SimState.new "AMD64" [] [] with satFlag := false, globalCondition := some Expr.ff }

/-- Concrete block for the process evaluation. -/
def blkC5 : Block := { insAddrs := [8192], size := 4, uid := 7 }

/-- Handler oracle for the process evaluation: always signals a relift with
the state it was given. -/
def handlerC5 : SimState Unit → Block → Except (SimErr Unit) (SimState Unit) :=
  fun st _ => Except.error (SimErr.reliftEx st)

/-- Lifter oracle for the process evaluation (never consulted because a block
is supplied). -/
def lifterOC5 : Nat → Option (List Nat) → Option Nat → Option Nat →
    Except (SimErr Unit) Block :=
  fun _ _ _ _ => Except.error SimErr.outOfFuel

/-- Concrete input state for the process evaluation. -/
def stC5 : SimState Unit := SimState.new "AMD64" [] []

end StateModel

namespace LiftModel

/-- Concrete engine with caching enabled and an empty cache. -/
def engC4 : Engine :=
  { stopPoints := none
    useCache := true
    cacheSize := 10000
    defaultOptLevel := 1
    supportSMC := false
    singleStep := false
    blockCache := []
    cacheHits := 0
    cacheMisses := 0 }

/-- Concrete lift arguments: explicit address, one explicit byte, explicit
optimization level. -/
def aC4 : LiftArgs :=
  { addr := some 4096
    insnBytes := some [144]
    size := none
    numInst := none
    thumb := false
    optLevel := some 1 }

/-- The block the concrete lifter oracle produces. -/
def blkC4 : StateModel.Block := { insAddrs := [4096], size := 1, uid := 42 }

/-- The cache key the concrete lift computes. -/
def keyC4 : CacheKey :=
  { addr := 4096, insnBytes := some [144], size := 400, numInst := none, thumb := 0, optLevel := 1 }

/-- Byte-load oracle for the concrete lift (unused: bytes are explicit). -/
def loadBC4 : Nat → Nat → List Nat × Nat := fun _ _ => ([], 0)

/-- Lifter oracle for the concrete lift: always produces blkC4. -/
def lifterC4 : List Nat → Nat → Nat → Option Nat → Nat → Int → Option StateModel.Block :=
  fun _ _ _ _ _ _ => some blkC4

/-- The engine state after the first concrete lift call: one miss, the block
cached under keyC4. -/
def e1C4 : Engine :=
  { stopPoints := none
    useCache := true
    cacheSize := 10000
    defaultOptLevel := 1
    supportSMC := false
    singleStep := false
    blockCache := [(keyC4, blkC4)]
    cacheHits := 0
    cacheMisses := 1 }

end LiftModel

/-
Theorems.  Helper lemmas come first, then one theorem per claim (with its
witness or counterexample where required).
-/

theorem orElse_some_left {α : Type} (a : α) (f : Unit → Option α) :
    (some a).orElse f = some a := rfl

theorem orElse_none_left {α : Type} (f : Unit → Option α) :
    (none : Option α).orElse f = f () := rfl

theorem orElse_none_right {α : Type} (x : Option α) :
    x.orElse (fun _ => none) = x := by cases x <;> rfl

theorem orElse_assoc' {α : Type} (a b c : Option α) :
    (a.orElse fun _ => b).orElse (fun _ => c) = a.orElse (fun _ => b.orElse fun _ => c) := by
  cases a <;> rfl

theorem alookup_append {κ α : Type} [DecidableEq κ] (l1 l2 : List (κ × α)) (k : κ) :
    alookup (l1 ++ l2) k = (alookup l1 k).orElse (fun _ => alookup l2 k) := by
  induction l1 with
  | nil => simp [alookup, orElse_none_left]
  | cons e rest ih =>
    obtain ⟨k1, v1⟩ := e
    by_cases hk : k1 = k
    · simp [alookup, hk, orElse_some_left]
    · simp [alookup, hk, ih]

theorem alookup_map_value {κ α β : Type} [DecidableEq κ] (l : List (κ × α)) (f : α → β) (k : κ) :
    alookup (l.map (fun e => (e.1, f e.2))) k = (alookup l k).map f := by
  induction l with
  | nil => simp [alookup]
  | cons e rest ih =>
    obtain ⟨k1, v1⟩ := e
    by_cases hk : k1 = k
    · simp [alookup, hk]
    · simp [alookup, hk, ih]

theorem alookup_aeraseKey_ne {κ α : Type} [DecidableEq κ] (l : List (κ × α)) (k k2 : κ)
    (h : k ≠ k2) : alookup (aeraseKey l k) k2 = alookup l k2 := by
  induction l with
  | nil => rfl
  | cons e rest ih =>
    obtain ⟨k1, v1⟩ := e
    by_cases h1 : k1 = k
    · subst h1
      simp [aeraseKey, alookup, h]
    · simp [aeraseKey, alookup, h1, ih]

theorem alookup_aset_self {κ α : Type} [DecidableEq κ] (l : List (κ × α)) (k : κ) (v : α) :
    alookup (aset l k v) k = some v := by
  induction l with
  | nil => simp [aset, alookup]
  | cons e rest ih =>
    obtain ⟨k1, v1⟩ := e
    by_cases h1 : k1 = k
    · simp [aset, h1, alookup]
    · simp [aset, h1, alookup, ih]

theorem alookup_aset_ne {κ α : Type} [DecidableEq κ] (l : List (κ × α)) (k k2 : κ) (v : α)
    (h : k ≠ k2) : alookup (aset l k v) k2 = alookup l k2 := by
  induction l with
  | nil => simp [aset, alookup, h]
  | cons e rest ih =>
    obtain ⟨k1, v1⟩ := e
    by_cases h1 : k1 = k
    · subst h1
      simp [aset, alookup, h]
    · simp [aset, h1, alookup, ih]

theorem alookup_isSome_iff_mem {κ α : Type} [DecidableEq κ] (l : List (κ × α)) (k : κ) :
    (alookup l k).isSome = true ↔ k ∈ l.map Prod.fst := by
  induction l with
  | nil => simp [alookup]
  | cons e rest ih =>
    obtain ⟨k1, v1⟩ := e
    by_cases h1 : k1 = k
    · simp [alookup, h1]
    · simp only [alookup, h1, ite_false, List.map_cons, List.mem_cons, if_neg]
      rw [ih]
      constructor
      · exact fun hm => Or.inr hm
      · rintro (hm | hm)
        · exact absurd hm.symm h1
        · exact hm

theorem firstSome_cons {α : Type} (x : Option α) (l : List (Option α)) :
    firstSome (x :: l) = x.orElse (fun _ => firstSome l) := by
  cases x <;> rfl

namespace GlobalsModel

theorem globKeysLoop_alookup {K V : Type} [DecidableEq K] (other : SimStateGlobals K V)
    (ks : List K) : ∀ (acc : SimStateGlobals K V) (k : K),
    alookup (globKeysLoop other ks acc).backer k
      = (alookup acc.backer k).orElse
          (fun _ => if k ∈ ks then alookup other.backer k else none) := by
  induction ks with
  | nil =>
    intro acc k
    simp [globKeysLoop, orElse_none_right]
  | cons k1 ks ih =>
    intro acc k
    unfold globKeysLoop
    rw [ih]
    by_cases hk : k1 = k
    · subst hk
      cases hacc : alookup acc.backer k1 with
      | some v =>
        simp [hacc, orElse_some_left]
      | none =>
        cases hoth : alookup other.backer k1 with
        | some v =>
          simp only [hacc, Option.isSome_none, Bool.false_eq_true, if_neg, hoth, if_false]
          rw [alookup_append]
          simp [hacc, alookup, hoth, orElse_none_left, orElse_some_left]
        | none =>
          simp [hacc, hoth, orElse_none_left]
    · have hmem : (k ∈ k1 :: ks) ↔ (k ∈ ks) := by
        constructor
        · intro hm
          rcases List.mem_cons.mp hm with hm1 | hm1
          · exact absurd hm1.symm hk
          · exact hm1
        · exact fun hm => List.mem_cons.mpr (Or.inr hm)
      have hfun : (fun _ : Unit => if k ∈ k1 :: ks then alookup other.backer k else none)
          = (fun _ : Unit => if k ∈ ks then alookup other.backer k else none) := by
        funext _
        exact if_congr hmem rfl rfl
      have hstepeq : alookup
          (if (alookup acc.backer k1).isSome then acc
           else
             match alookup other.backer k1 with
             | some v => ({ backer := acc.backer ++ [(k1, v)] } : SimStateGlobals K V)
             | none => acc).backer k = alookup acc.backer k := by
        split
        · rfl
        · split
          · rw [alookup_append]
            simp [alookup, hk, orElse_none_right]
          · rfl
      rw [hstepeq, hfun]

theorem globOthersLoop_alookup {K V : Type} [DecidableEq K]
    (os : List (SimStateGlobals K V)) : ∀ (acc : SimStateGlobals K V) (k : K),
    alookup (globOthersLoop os acc).backer k
      = (alookup acc.backer k).orElse
          (fun _ => firstSome (os.map (fun o => alookup o.backer k))) := by
  induction os with
  | nil =>
    intro acc k
    simp [globOthersLoop, firstSome, orElse_none_right]
  | cons o os ih =>
    intro acc k
    unfold globOthersLoop
    rw [ih, globKeysLoop_alookup]
    have hif : (if k ∈ o.backer.map Prod.fst then alookup o.backer k else none)
        = alookup o.backer k := by
      by_cases hm : k ∈ o.backer.map Prod.fst
      · simp [hm]
      · cases hl : alookup o.backer k with
        | some v =>
          exact absurd ((alookup_isSome_iff_mem o.backer k).mp (by simp [hl])) hm
        | none => simp [hm]
    rw [hif, orElse_assoc', List.map_cons, firstSome_cons]

/-- C10: the merge of the globals plugin preserves every key-value pair
already present in the receiver (values from the other states are consulted
only for keys the receiver lacks, and among the others the first writer
wins), and it reports a change unconditionally: the returned flag is True
regardless of whether any key was added. -/
theorem C10_globals_merge {K V : Type} [DecidableEq K] (self : SimStateGlobals K V)
    (others : List (SimStateGlobals K V)) (mergeConditions : List Expr)
    (commonAncestor : Option (SimStateGlobals K V)) :
    (SimStateGlobals.merge self others mergeConditions commonAncestor).2 = true
    ∧ (∀ k,
        alookup (SimStateGlobals.merge self others mergeConditions commonAncestor).1.backer k
          = (alookup self.backer k).orElse
              (fun _ => firstSome (others.map (fun o => alookup o.backer k))))
    ∧ (∀ k v, alookup self.backer k = some v →
        alookup (SimStateGlobals.merge self others mergeConditions commonAncestor).1.backer k
          = some v) := by
  refine ⟨rfl, fun k => globOthersLoop_alookup others self k, fun k v hv => ?_⟩
  show alookup (globOthersLoop others self).backer k = some v
  rw [globOthersLoop_alookup, hv]
  rfl

end GlobalsModel

namespace StateModel

theorem getPlugin_fst {P : Type} (ops : PluginOps P) (st : SimState P) (n : String) :
    (SimState.getPlugin ops st n).1 = (alookup st.plugins n).getD (ops.newDefault n) := by
  unfold SimState.getPlugin
  cases h : alookup st.plugins n <;> simp [h]

theorem getPlugin_satFlag {P : Type} (ops : PluginOps P) (st : SimState P) (n : String) :
    ((SimState.getPlugin ops st n).2).satFlag = st.satFlag := by
  unfold SimState.getPlugin
  cases h : alookup st.plugins n <;> simp [h]

theorem getPlugin_options {P : Type} (ops : PluginOps P) (st : SimState P) (n : String) :
    ((SimState.getPlugin ops st n).2).options = st.options := by
  unfold SimState.getPlugin
  cases h : alookup st.plugins n <;> simp [h]

theorem getPlugin_seOf {P : Type} (ops : PluginOps P) (st : SimState P) (n : String) :
    seOf ops ((SimState.getPlugin ops st n).2) = seOf ops st := by
  unfold SimState.getPlugin
  cases h : alookup st.plugins n with
  | some p => simp [h]
  | none =>
    simp only [h]
    unfold seOf
    rw [alookup_append]
    by_cases hn : n = "solver_engine"
    · subst hn
      rw [h]
      simp [alookup, orElse_none_left]
    · cases h2 : alookup st.plugins "solver_engine" <;>
        simp [h2, alookup, hn, orElse_none_left, orElse_some_left]

theorem setPlugin_satFlag {P : Type} (st : SimState P) (n : String) (p : P) :
    (st.setPlugin n p).satFlag = st.satFlag := rfl

theorem setPlugin_options {P : Type} (st : SimState P) (n : String) (p : P) :
    (st.setPlugin n p).options = st.options := rfl

theorem seOf_setPlugin_ne {P : Type} (ops : PluginOps P) (st : SimState P) (n : String) (p : P)
    (h : n ≠ "solver_engine") : seOf ops (st.setPlugin n p) = seOf ops st := by
  unfold seOf SimState.setPlugin
  simp only
  rw [alookup_aset_ne _ _ _ _ h]


theorem narrowStep_seOf {P : Type} (ops : PluginOps P) (a : Expr) (st : SimState P) :
    seOf ops (narrowStep ops a st) = seOf ops st := by
  unfold narrowStep
  rw [seOf_setPlugin_ne _ _ _ _ (by decide), getPlugin_seOf,
    seOf_setPlugin_ne _ _ _ _ (by decide), getPlugin_seOf]

theorem narrowStep_satFlag {P : Type} (ops : PluginOps P) (a : Expr) (st : SimState P) :
    (narrowStep ops a st).satFlag = st.satFlag := by
  unfold narrowStep
  rw [setPlugin_satFlag, getPlugin_satFlag, setPlugin_satFlag, getPlugin_satFlag]

theorem absScan_satFlag {P : Type} (ops : PluginOps P) (l : List Expr) :
    ∀ st : SimState P,
    (absScan ops st l).satFlag
      = if l.any (fun a => absDetFalse ops (seOf ops st) a) then false else st.satFlag := by
  induction l with
  | nil => intro st; simp [absScan]
  | cons a rest ih =>
    intro st
    have hse : (SimState.getPlugin ops st "solver_engine").1 = seOf ops st := by
      rw [getPlugin_fst]; rfl
    have hstse : seOf ops ((SimState.getPlugin ops st "solver_engine").2) = seOf ops st :=
      getPlugin_seOf ops st "solver_engine"
    have hstf : ((SimState.getPlugin ops st "solver_engine").2).satFlag = st.satFlag :=
      getPlugin_satFlag ops st "solver_engine"
    unfold absScan
    simp only [hse]
    by_cases h1 : ops.isFalse (seOf ops st) a
    · simp [h1, absDetFalse]
    · simp only [h1, Bool.false_eq_true, if_false, ite_false]
      by_cases h2 : ops.isTrue (seOf ops st) a
      · simp only [h2, if_true, ite_true]
        rw [ih _, hstse, hstf]
        simp [absDetFalse, h1, h2]
      · simp only [h2, Bool.false_eq_true, if_false, ite_false]
        by_cases h3 : ops.vsaIsFalse a
        · simp [h3, absDetFalse, h1, h2]
        · simp only [h3, Bool.false_eq_true, if_false, ite_false]
          by_cases h4 : ops.vsaIsTrue a
          · simp only [h4, if_true, ite_true]
            rw [ih _, hstse, hstf]
            simp [absDetFalse, h1, h2, h3]
          · simp only [h4, Bool.false_eq_true, if_false, ite_false]
            rw [ih _, narrowStep_seOf, narrowStep_satFlag, hstse, hstf]
            simp [absDetFalse, h1, h2, h3, h4]

theorem symScan_satFlag {P : Type} (ops : PluginOps P) (l : List Expr) :
    ∀ st : SimState P,
    (symScan ops st l).satFlag
      = if l.any (fun a => ops.isFalse (seOf ops st) a) then false else st.satFlag := by
  induction l with
  | nil => intro st; simp [symScan]
  | cons a rest ih =>
    intro st
    have hse : (SimState.getPlugin ops st "solver_engine").1 = seOf ops st := by
      rw [getPlugin_fst]; rfl
    have hstse : seOf ops ((SimState.getPlugin ops st "solver_engine").2) = seOf ops st :=
      getPlugin_seOf ops st "solver_engine"
    have hstf : ((SimState.getPlugin ops st "solver_engine").2).satFlag = st.satFlag :=
      getPlugin_satFlag ops st "solver_engine"
    unfold symScan
    simp only [hse]
    by_cases h1 : ops.isFalse (seOf ops st) a
    · simp [h1]
    · simp only [h1, Bool.false_eq_true, if_false, ite_false]
      rw [ih _, hstse, hstf]
      simp [h1]

theorem trackPhase_satFlag {P : Type} (ops : PluginOps P) (st : SimState P) (args : List Expr)
    (actionKw : Bool) : (trackPhase ops st args actionKw).satFlag = st.satFlag := by
  unfold trackPhase
  split
  · dsimp only
    split <;> split <;> simp only [setPlugin_satFlag, getPlugin_satFlag]
  · split
    · dsimp only
      simp only [setPlugin_satFlag, getPlugin_satFlag]
    · rfl

theorem trackPhase_options {P : Type} (ops : PluginOps P) (st : SimState P) (args : List Expr)
    (actionKw : Bool) : (trackPhase ops st args actionKw).options = st.options := by
  unfold trackPhase
  split
  · dsimp only
    split <;> split <;> simp only [setPlugin_options, getPlugin_options]
  · split
    · dsimp only
      simp only [setPlugin_options, getPlugin_options]
    · rfl

/-- C6: in abstract-solver mode, or when the symbolic option is absent,
satisfiable does not consult the real solver (its result is unchanged under
any replacement of the real-solver oracle): it returns false when some extra
constraint is decidably false and the cached _satisfiable flag otherwise.
The flag starts true in a fresh state; add_constraints turns it false exactly
when the scan finds an added constraint decidably false (by the solver or,
in abstract-solver mode, by the VSA backend for solver-undecided
constraints); and once the flag is false, add_constraints never turns it
back to true. -/
theorem C6_approx_satisfiable {P : Type} (ops : PluginOps P) (st : SimState P)
    (extras args : List Expr) (arch : String) (opts2 : List SimOption)
    (plugs : List (String × P)) (rs : P → List Expr → Bool)
    (happrox : SimOption.ABSTRACT_SOLVER ∈ st.options ∨ SimOption.SYMBOLIC ∉ st.options) :
    (SimState.satisfiable ops st extras
        = if extras.any (fun e => ops.isFalse (seOf ops st) e) then false else st.satFlag)
    ∧ SimState.satisfiable { ops with realSat := rs } st extras
        = SimState.satisfiable ops st extras
    ∧ (SimState.new (P := P) arch opts2 plugs).satFlag = true
    ∧ (SimOption.ABSTRACT_SOLVER ∈ st.options →
        (SimState.add_constraints ops st args false).satFlag
          = if args.any
                (fun a => absDetFalse ops (seOf ops (trackPhase ops st args false)) a)
            then false else st.satFlag)
    ∧ (SimOption.ABSTRACT_SOLVER ∉ st.options → SimOption.SYMBOLIC ∉ st.options →
        (SimState.add_constraints ops st args false).satFlag
          = if args.any (fun a => ops.isFalse (seOf ops (trackPhase ops st args false)) a)
            then false else st.satFlag)
    ∧ (st.satFlag = false → (SimState.add_constraints ops st args false).satFlag = false) := by
  have habs : ∀ h : SimOption.ABSTRACT_SOLVER ∈ st.options,
      (SimState.add_constraints ops st args false).satFlag
        = if args.any (fun a => absDetFalse ops (seOf ops (trackPhase ops st args false)) a)
          then false else st.satFlag := by
    intro h
    unfold SimState.add_constraints
    have hopt : SimOption.ABSTRACT_SOLVER ∈ (trackPhase ops st args false).options := by
      rw [trackPhase_options]; exact h
    by_cases hlen : 0 < args.length
    · rw [if_pos ⟨hopt, hlen⟩, absScan_satFlag, trackPhase_satFlag]
    · have hargs : args = [] := by
        cases args with
        | nil => rfl
        | cons x xs => exact absurd (Nat.succ_pos xs.length) hlen
      subst hargs
      simp [trackPhase_satFlag]
  have hsym : ∀ (h1 : SimOption.ABSTRACT_SOLVER ∉ st.options)
      (h2 : SimOption.SYMBOLIC ∉ st.options),
      (SimState.add_constraints ops st args false).satFlag
        = if args.any (fun a => ops.isFalse (seOf ops (trackPhase ops st args false)) a)
          then false else st.satFlag := by
    intro h1 h2
    unfold SimState.add_constraints
    have hopt1 : SimOption.ABSTRACT_SOLVER ∉ (trackPhase ops st args false).options := by
      rw [trackPhase_options]; exact h1
    have hopt2 : SimOption.SYMBOLIC ∉ (trackPhase ops st args false).options := by
      rw [trackPhase_options]; exact h2
    by_cases hlen : 0 < args.length
    · rw [if_neg (fun hc => hopt1 hc.1), if_pos ⟨hopt2, hlen⟩, symScan_satFlag,
        trackPhase_satFlag]
    · have hargs : args = [] := by
        cases args with
        | nil => rfl
        | cons x xs => exact absurd (Nat.succ_pos xs.length) hlen
      subst hargs
      simp [trackPhase_satFlag]
  refine ⟨?_, ?_, rfl, habs, hsym, ?_⟩
  · unfold SimState.satisfiable
    rw [if_pos happrox]
  · unfold SimState.satisfiable
    rw [if_pos happrox, if_pos happrox]
    rfl
  · intro hfalse
    by_cases h1 : SimOption.ABSTRACT_SOLVER ∈ st.options
    · rw [habs h1, hfalse]
      split <;> rfl
    · by_cases h2 : SimOption.SYMBOLIC ∈ st.options
      · unfold SimState.add_constraints
        have hopt1 : SimOption.ABSTRACT_SOLVER ∉ (trackPhase ops st args false).options := by
          rw [trackPhase_options]; exact h1
        have hopt2 : SimOption.SYMBOLIC ∈ (trackPhase ops st args false).options := by
          rw [trackPhase_options]; exact h2
        rw [if_neg (fun hc => hopt1 hc.1), if_neg (fun hc => hc.1 hopt2), trackPhase_satFlag]
        exact hfalse
      · rw [hsym h1 h2, hfalse]
        split <;> rfl

/-- C6 witness: in a concrete abstract-solver state with a decidably false
added constraint, add_constraints drives the cached flag to false, and
satisfiable reports false for a decidably false extra constraint. -/
theorem C6_approx_satisfiable_witness :
    (SimOption.ABSTRACT_SOLVER ∈ stC6.options ∨ SimOption.SYMBOLIC ∉ stC6.options)
    ∧ (SimState.satisfiable opsU stC6 [Expr.ff]
        = if [Expr.ff].any (fun e => opsU.isFalse (seOf opsU stC6) e) then false
          else stC6.satFlag)
    ∧ (SimOption.ABSTRACT_SOLVER ∈ stC6.options →
        (SimState.add_constraints opsU stC6 [Expr.ff] false).satFlag
          = if [Expr.ff].any
                (fun a => absDetFalse opsU (seOf opsU (trackPhase opsU stC6 [Expr.ff] false)) a)
            then false else stC6.satFlag) :=
  ⟨Or.inl (by decide),
   (C6_approx_satisfiable opsU stC6 [Expr.ff] [Expr.ff] "X86" [] [] (fun _ _ => false)
     (Or.inl (by decide))).1,
   (C6_approx_satisfiable opsU stC6 [Expr.ff] [Expr.ff] "X86" [] [] (fun _ _ => false)
     (Or.inl (by decide))).2.2.2.1⟩

/-- C9: the scoped global-condition facility restores the previously active
global condition on every exit of the scope, whatever the body did to the
state and whether it returned normally or with an error; on entry the body
observes the new condition when none was active and the conjunction of the
active condition with the new one otherwise; the error exit restores exactly
like the normal exit. -/
theorem C9_with_condition {P A : Type} (st : SimState P) (c : Expr)
    (body : SimState P → SimState P × Except (SimErr P) A) :
    ((SimState.with_condition st c body).1.globalCondition = st.globalCondition)
    ∧ (∀ g, st.globalCondition = some g → enterCondition st c = Expr.andAll [g, c])
    ∧ (st.globalCondition = none → enterCondition st c = c)
    ∧ SimState.with_condition st c body
        = ((body (st.setGC (some (enterCondition st c)))).1.setGC st.globalCondition,
           (body (st.setGC (some (enterCondition st c)))).2)
    ∧ (∀ s2 e, body (st.setGC (some (enterCondition st c))) = (s2, Except.error e) →
        SimState.with_condition st c body = (s2.setGC st.globalCondition, Except.error e)) := by
  refine ⟨rfl, ?_, ?_, rfl, ?_⟩
  · intro g hg
    unfold enterCondition
    rw [hg]
  · intro hg
    unfold enterCondition
    rw [hg]
  · intro s2 e hbody
    unfold SimState.with_condition
    dsimp only
    rw [hbody]

/-- C9 witness: with a condition already active and a body that both mutates
the global condition and fails, the scope conjoins the conditions on entry
and restores the saved condition on the error exit. -/
theorem C9_with_condition_witness :
    (bodyC9 (stC9.setGC (some (enterCondition stC9 cC9))) = (s2C9, Except.error SimErr.keyError))
    ∧ SimState.with_condition stC9 cC9 bodyC9
        = (s2C9.setGC stC9.globalCondition, Except.error SimErr.keyError) :=
  ⟨rfl, (C9_with_condition stC9 cC9 bodyC9).2.2.2.2 s2C9 SimErr.keyError rfl⟩

/-- C2 counterexample: with the ignore-exit-guards option set, handling a
conditional exit still changes the running scratch guard: the negated exit
condition is conjoined onto it, so the guard does not equal its value from
before the statement as the claim states. -/
theorem C2_counterexample :
    SimOption.IGNORE_EXIT_GUARDS ∈ stC2.options
    ∧ stC2.scratchGuard = Expr.tt
    ∧ (handle_statement opsU transC2 stC2 [] VexStmt.exitStmt).map
        (fun r => r.1.scratchGuard)
        = Except.ok (Expr.andAll [Expr.tt, Expr.nt gC2])
    ∧ Expr.andAll [Expr.tt, Expr.nt gC2] ≠ Expr.tt :=
  ⟨by decide, rfl, rfl, fun h => Expr.noConfusion h⟩

/-- C2 amended: with the ignore-exit-guards policy option set, handling a
conditional-exit statement still records the branch successor and adds no
continuation constraint to the state (no add_constraints call: the solver
plugin, the satisfiability flag and every other field are untouched), but the
running scratch guard is still conjoined with the negation of the exit
condition, exactly as on the normal path. -/
theorem C2_ignore_exit_guards {P : Type} (ops : PluginOps P)
    (trans : VexStmt → SimState P → SimState P × Option StmtResult)
    (st : SimState P) (succs : List (Successor P)) (st1 : SimState P) (sr : StmtResult)
    (htr : trans VexStmt.exitStmt st = (st1, some sr))
    (hIG : SimOption.IGNORE_EXIT_GUARDS ∈ st1.options)
    (hgc : st1.globalCondition = none) :
    handle_statement ops trans st succs VexStmt.exitStmt
      = Except.ok
          ({ st1 with scratchGuard := Expr.andAll [st1.scratchGuard, Expr.nt sr.guard] },
           succs ++ [{ state := SimState.copyPure ops st1, target := sr.target,
                       guard := sr.guard, jumpkind := sr.jumpkind,
                       exitStmtIdx := st1.scratchStmtIdx,
                       exitInsAddr := st1.scratchInsAddr }]) := by
  have hcopy : SimState.copy ops st1 = Except.ok (SimState.copyPure ops st1) := by
    simp [SimState.copy, hgc]
  unfold handle_statement
  dsimp only
  rw [htr]
  dsimp only
  rw [hcopy]
  dsimp only
  rw [if_neg (fun hni => hni hIG)]

/-- C2 witness: the amended statement evaluated at a concrete ignore-guards
state and a concrete exit statement. -/
theorem C2_ignore_exit_guards_witness :
    (transC2 VexStmt.exitStmt stC2 = (stC2, some srC2))
    ∧ SimOption.IGNORE_EXIT_GUARDS ∈ stC2.options
    ∧ stC2.globalCondition = none
    ∧ handle_statement opsU transC2 stC2 [] VexStmt.exitStmt
        = Except.ok
            ({ stC2 with scratchGuard := Expr.andAll [stC2.scratchGuard, Expr.nt srC2.guard] },
             [{ state := SimState.copyPure opsU stC2, target := srC2.target,
                guard := srC2.guard, jumpkind := srC2.jumpkind,
                exitStmtIdx := stC2.scratchStmtIdx,
                exitInsAddr := stC2.scratchInsAddr }]) :=
  ⟨rfl, by decide, rfl,
   C2_ignore_exit_guards opsU transC2 stC2 [] stC2 srC2 rfl (by decide) rfl⟩

/-- C5: whenever a process call runs with an explicit byte override
(insn_bytes) and the block handler signals a self-modification re-lift, the
call raises the fatal SimEngineError about passing self-modifying code as
insn_bytes, surfacing it to the caller instead of retrying. -/
theorem C5_insn_bytes_relift {P : Type} (ops : PluginOps P)
    (lifterO : Nat → Option (List Nat) → Option Nat → Option Nat → Except (SimErr P) Block)
    (handler : SimState P → Block → Except (SimErr P) (SimState P))
    (permsOK : Nat → Bool) (fuel : Nat) (st0 : SimState P) (irsbOpt : Option Block)
    (bs : List Nat) (size numInst : Option Nat) (addr : Nat) (b : Block) (s : SimState P)
    (hirsb : getIrsb lifterO (some bs) irsbOpt addr size numInst = Except.ok b)
    (hsz : b.size ≠ 0)
    (hperm : SimOption.STRICT_PAGE_ACCESS ∉ st0.options ∨ permsOK addr = true)
    (hh : handler { st0 with scratchGuard := Expr.tt } b = Except.error (SimErr.reliftEx s)) :
    process ops lifterO handler permsOK (fuel + 1) st0 irsbOpt (some bs) size numInst addr
      = Except.error
          (SimErr.engineErr "You cannot pass self-modifying code as insn_bytes!!!") := by
  unfold process processLoop
  dsimp only
  rw [hirsb]
  dsimp only
  rw [if_neg hsz]
  have hpc : ¬ (SimOption.STRICT_PAGE_ACCESS ∈
      ({ st0 with scratchGuard := Expr.tt } : SimState P).options ∧ ¬ permsOK addr = true) := by
    rcases hperm with hp | hp
    · exact fun hc => hp hc.1
    · exact fun hc => hc.2 hp
  rw [if_neg hpc]
  rw [hh]
  rfl

/-- C5 witness: a concrete process call with explicit bytes and a handler
that signals a relift raises the SimEngineError. -/
theorem C5_insn_bytes_relift_witness :
    (getIrsb lifterOC5 (some [144]) (some blkC5) 4096 none none = Except.ok blkC5)
    ∧ blkC5.size ≠ 0
    ∧ (SimOption.STRICT_PAGE_ACCESS ∉ stC5.options ∨ (fun _ => true) 4096 = true)
    ∧ handlerC5 { stC5 with scratchGuard := Expr.tt } blkC5
        = Except.error (SimErr.reliftEx { stC5 with scratchGuard := Expr.tt })
    ∧ process opsU lifterOC5 handlerC5 (fun _ => true) 3 stC5 (some blkC5) (some [144])
        none none 4096
      = Except.error
          (SimErr.engineErr "You cannot pass self-modifying code as insn_bytes!!!") :=
  ⟨rfl, by decide, Or.inl (by decide), rfl,
   C5_insn_bytes_relift opsU lifterOC5 handlerC5 (fun _ => true) 2 stC5 (some blkC5) [144]
     none none 4096 blkC5 { stC5 with scratchGuard := Expr.tt } rfl (by decide)
     (Or.inl (by decide)) rfl⟩

theorem mergeOnePlugin_error {P : Type} (ops : PluginOps P) (conds : List Expr)
    (anc : Option (SimState P)) (others : List (SimState P)) (merged : SimState P)
    (p : String) (e : SimErr P)
    (h : mergeOnePlugin ops conds anc others merged p = Except.error e) :
    e = SimErr.mergePluginClasses p := by
  unfold mergeOnePlugin at h
  by_cases hcls : (mergeClasses ops others merged p).length ≠ 1
  · rw [if_pos hcls] at h
    injection h with h2
    exact h2.symm
  · rw [if_neg hcls] at h
    simp at h

theorem mergePluginsLoop_ne_mergeArch {P : Type} (ops : PluginOps P) (conds : List Expr)
    (anc : Option (SimState P)) (others : List (SimState P)) (names : List String) :
    ∀ (merged : SimState P) (occ : Bool),
    mergePluginsLoop ops conds anc others names merged occ
      ≠ Except.error (SimErr.mergeArch : SimErr P) := by
  induction names with
  | nil =>
    intro merged occ h
    simp [mergePluginsLoop] at h
  | cons p rest ih =>
    intro merged occ h
    unfold mergePluginsLoop at h
    split at h
    · next e heq =>
      injection h with h2
      subst h2
      exact absurd (mergeOnePlugin_error ops conds anc others merged p _ heq)
        (fun hcls => SimErr.noConfusion hcls)
    · next r heq =>
      exact ih r.1 (occ || r.2) h

/-- C3 counterexample: the architecture check of merge consults only the
other states, so a merge in which the receiver has a different architecture
than the others succeeds even though the participating states do not all
share one architecture, contradicting the claim. -/
theorem C3_counterexample :
    stC3self.archName ≠ stC3other.archName
    ∧ exceptOk (SimState.merge opsU 0 stC3self [stC3other, stC3other] none none none)
        = true :=
  ⟨by decide, rfl⟩

/-- C3 amended: merge raises the architecture merge error exactly when the
states in others do not carry exactly one distinct architecture name among
them, so it also fails when others is empty, and the architecture of the
receiving state is never consulted by the check. -/
theorem C3_merge_arch_check {P : Type} (ops : PluginOps P) (ctr : Nat) (self : SimState P)
    (others : List (SimState P)) (mergeConditions : Option (List (List Expr)))
    (commonAncestor : Option (SimState P)) (pluginWhitelist : Option (List String)) :
    SimState.merge ops ctr self others mergeConditions commonAncestor pluginWhitelist
        = Except.error SimErr.mergeArch
      ↔ ((others.map (fun o2 => o2.archName)).dedup).length ≠ 1 := by
  constructor
  · intro h
    by_contra hno
    unfold SimState.merge at h
    rw [if_neg (fun hne => hne hno)] at h
    split at h
    · next e heq =>
      injection h with h2
      subst h2
      unfold SimState.copy at heq
      split at heq
      · injection heq with h3
        exact SimErr.noConfusion h3
      · simp at heq
    · next m heq =>
      split at h
      · dsimp only at h
        split at h
        · next e2 heq2 =>
          injection h with h2
          subst h2
          exact mergePluginsLoop_ne_mergeArch _ _ _ _ _ _ _ heq2
        · simp at h
      · dsimp only at h
        split at h
        · next e2 heq2 =>
          injection h with h2
          subst h2
          exact mergePluginsLoop_ne_mergeArch _ _ _ _ _ _ _ heq2
        · simp at h
  · intro h
    unfold SimState.merge
    rw [if_pos h]

/-- C1: a merge call without explicit merge conditions synthesizes one fresh
16-bit discriminant variable indexed by the global merge counter and produces
exactly len(others)+1 branch conditions, the i-th being the equality of the
discriminant with the value i for i in 0..len(others).  Before the merged
state is returned it is constrained, through add_constraints, with the
disjunction of exactly these branch conditions. -/
theorem C1_merge_fresh_conditions {P : Type} (ops : PluginOps P) (ctr : Nat)
    (self : SimState P) (others : List (SimState P)) (commonAncestor : Option (SimState P))
    (pluginWhitelist : Option (List String)) (r : SimState P × List Expr × Bool)
    (h : SimState.merge ops ctr self others none commonAncestor pluginWhitelist
          = Except.ok r) :
    r.2.1 = synthConditions ctr others.length
    ∧ r.2.1.length = others.length + 1
    ∧ (∀ i (hi : i < r.2.1.length),
        r.2.1.get ⟨i, hi⟩ = Expr.eq (Expr.bvs "state_merge" ctr 16) (Expr.bvv i 16))
    ∧ (∃ m occ,
        r = (SimState.add_constraints ops m
               [Expr.orAll (synthConditions ctr others.length)] false,
             synthConditions ctr others.length, occ)) := by
  unfold SimState.merge at h
  simp only [Option.isNone_none, eq_self_iff_true, true_or, if_true, ite_true] at h
  split at h
  · simp at h
  · split at h
    · simp at h
    · next m heq =>
      split at h
      · simp at h
      · next r2 heq2 =>
        injection h with h2
        subst h2
        refine ⟨rfl, ?_, ?_, ⟨r2.1, r2.2, rfl⟩⟩
        · simp [synthConditions]
        · intro i hi
          simp [synthConditions, List.get_eq_getElem]

/-- C1 witness: a concrete merge of a receiver with two other states and no
explicit conditions, evaluated in full. -/
theorem C1_merge_fresh_conditions_witness :
    (SimState.merge opsU 7 stC1self [stC1other, stC1other] none none none = Except.ok rC1)
    ∧ rC1.2.1 = synthConditions 7 2
    ∧ rC1.2.1.length = 2 + 1
    ∧ (∀ i (hi : i < rC1.2.1.length),
        rC1.2.1.get ⟨i, hi⟩ = Expr.eq (Expr.bvs "state_merge" 7 16) (Expr.bvv i 16))
    ∧ (∃ m occ,
        rC1 = (SimState.add_constraints opsU m [Expr.orAll (synthConditions 7 2)] false,
               synthConditions 7 2, occ)) :=
  ⟨rfl,
   (C1_merge_fresh_conditions opsU 7 stC1self [stC1other, stC1other] none none rC1 rfl).1,
   (C1_merge_fresh_conditions opsU 7 stC1self [stC1other, stC1other] none none rC1 rfl).2.1,
   (C1_merge_fresh_conditions opsU 7 stC1self [stC1other, stC1other] none none rC1 rfl).2.2.1,
   (C1_merge_fresh_conditions opsU 7 stC1self [stC1other, stC1other] none none rC1 rfl).2.2.2⟩

theorem widenLoop_solver_lookup {P : Type} (ops : PluginOps P) (others : List (SimState P))
    (names : List String) :
    ∀ (merged : SimState P) (occ : Bool) (w : SimState P) (oc2 : Bool),
    widenLoop ops others names merged occ = Except.ok (w, oc2) →
    alookup w.plugins "solver_engine" = alookup merged.plugins "solver_engine" := by
  induction names with
  | nil =>
    intro merged occ w oc2 h
    injection h with h2
    have hw : merged = w := congrArg Prod.fst h2
    rw [← hw]
  | cons p rest ih =>
    intro merged occ w oc2 h
    unfold widenLoop at h
    split at h
    · exact ih merged occ w oc2 h
    · next hns =>
      have hnp : p ≠ "solver_engine" := fun he => hns (Or.inl he)
      split at h
      · exact Except.noConfusion h
      · next wp hwp =>
        split at h
        · exact Except.noConfusion h
        · next theirPlugins htp =>
          have := ih _ _ _ _ h
          rw [this]
          show alookup (aset merged.plugins p _) "solver_engine"
              = alookup merged.plugins "solver_engine"
          exact alookup_aset_ne _ _ _ _ hnp

theorem widenLoop_ops_agree {P : Type} (ops : PluginOps P)
    (g : String → P → List P → P × Bool) (others : List (SimState P)) (names : List String)
    (hg : ∀ n pl pls, n ≠ "solver_engine" → n ≠ "unicorn" → g n pl pls = ops.widenP n pl pls) :
    ∀ (merged : SimState P) (occ : Bool),
    widenLoop { ops with widenP := g } others names merged occ
      = widenLoop ops others names merged occ := by
  induction names with
  | nil => intro merged occ; rfl
  | cons p rest ih =>
    intro merged occ
    unfold widenLoop
    split
    · exact ih merged occ
    · next hns =>
      have hnp : p ≠ "solver_engine" := fun he => hns (Or.inl he)
      have hnu : p ≠ "unicorn" := fun he => hns (Or.inr he)
      cases hwp : alookup merged.plugins p with
      | none => rfl
      | some wp =>
        cases htp : (others.mapM (fun o2 => alookup o2.plugins p) : Option (List P)) with
        | none => rfl
        | some theirPlugins =>
          show widenLoop { ops with widenP := g } others rest
              (merged.setPlugin p (g p wp theirPlugins).1) (occ || (g p wp theirPlugins).2)
            = widenLoop ops others rest
              (merged.setPlugin p (ops.widenP p wp theirPlugins).1)
              (occ || (ops.widenP p wp theirPlugins).2)
          rw [hg p wp theirPlugins hnp hnu]
          exact ih _ _

theorem widenLoop_allFalse {P : Type} (ops : PluginOps P) (others : List (SimState P))
    (names : List String)
    (hf : ∀ n pl pls, n ≠ "solver_engine" → n ≠ "unicorn" → (ops.widenP n pl pls).2 = false) :
    ∀ (merged : SimState P) (w : SimState P) (oc2 : Bool),
    widenLoop ops others names merged false = Except.ok (w, oc2) → oc2 = false := by
  induction names with
  | nil =>
    intro merged w oc2 h
    injection h with h2
    exact (congrArg Prod.snd h2).symm
  | cons p rest ih =>
    intro merged w oc2 h
    unfold widenLoop at h
    split at h
    · exact ih merged w oc2 h
    · next hns =>
      have hnp : p ≠ "solver_engine" := fun he => hns (Or.inl he)
      have hnu : p ≠ "unicorn" := fun he => hns (Or.inr he)
      split at h
      · exact Except.noConfusion h
      · next wp hwp =>
        split at h
        · exact Except.noConfusion h
        · next theirPlugins htp =>
          dsimp only at h
          rw [hf p wp theirPlugins hnp hnu] at h
          exact ih _ w oc2 h

/-- C7: a successful widen never invokes the widen of the solver/constraint
plugin (the result is unchanged under any replacement of the widen dispatch
at the exempted solver_engine and unicorn names), the widened state carries
the plain copy of the receiver solver plugin, and the solver plugin is never
the reason the widening-occurred flag is true: when every non-exempt plugin
widen reports no change, the flag is false. -/
theorem C7_widen_skips_solver {P : Type} (ops : PluginOps P)
    (g : String → P → List P → P × Bool) (self : SimState P) (others : List (SimState P))
    (w : SimState P) (changed : Bool)
    (hg : ∀ n pl pls, n ≠ "solver_engine" → n ≠ "unicorn" → g n pl pls = ops.widenP n pl pls)
    (h : SimState.widen ops self others = Except.ok (w, changed)) :
    SimState.widen { ops with widenP := g } self others = Except.ok (w, changed)
    ∧ alookup w.plugins "solver_engine"
        = (alookup self.plugins "solver_engine").map ops.copy
    ∧ ((∀ n pl pls, n ≠ "solver_engine" → n ≠ "unicorn" → (ops.widenP n pl pls).2 = false) →
        changed = false) := by
  unfold SimState.widen at h ⊢
  split at h
  · exact Except.noConfusion h
  next hks =>
    split at h
    · exact Except.noConfusion h
    next harch =>
      split at h
      · exact Except.noConfusion h
      next widened hcopy =>
        have hcopy2 : SimState.copy { ops with widenP := g } self = Except.ok widened := hcopy
        refine ⟨?_, ?_, ?_⟩
        · rw [if_neg hks, if_neg harch, hcopy2]
          show widenLoop { ops with widenP := g } others (self.plugins.map Prod.fst)
              widened false = Except.ok (w, changed)
          rw [widenLoop_ops_agree ops g others (self.plugins.map Prod.fst) hg]
          exact h
        · have hsol := widenLoop_solver_lookup ops others (self.plugins.map Prod.fst)
            widened false w changed h
          rw [hsol]
          have hwid : widened = SimState.copyPure ops self := by
            unfold SimState.copy at hcopy
            split at hcopy
            · exact Except.noConfusion hcopy
            · injection hcopy with h2
              exact h2.symm
          rw [hwid]
          unfold SimState.copyPure SimState.new
          exact alookup_map_value self.plugins ops.copy "solver_engine"
        · intro hf
          exact widenLoop_allFalse ops others (self.plugins.map Prod.fst) hf widened w
            changed h

/-- C7 witness: a concrete widen over a solver plugin and a globals plugin,
with a misbehaving alternative dispatch at the solver name. -/
theorem C7_widen_skips_solver_witness :
    (∀ n pl pls, n ≠ "solver_engine" → n ≠ "unicorn" →
      gWidenC7 n pl pls = opsN.widenP n pl pls)
    ∧ SimState.widen opsN stC7self [stC7other] = Except.ok (wC7, false)
    ∧ (SimState.widen { opsN with widenP := gWidenC7 } stC7self [stC7other]
          = Except.ok (wC7, false)
       ∧ alookup wC7.plugins "solver_engine"
          = (alookup stC7self.plugins "solver_engine").map opsN.copy
       ∧ ((∀ n pl pls, n ≠ "solver_engine" → n ≠ "unicorn" →
            (opsN.widenP n pl pls).2 = false) → false = false)) :=
  ⟨fun n pl pls h1 h2 => by simp [gWidenC7, h1],
   rfl,
   C7_widen_skips_solver opsN gWidenC7 stC7self [stC7other] wC7 false
     (fun n pl pls h1 h2 => by simp [gWidenC7, h1]) rfl⟩

end StateModel

namespace LiftModel

theorem clampSize_idem (s : Option Nat) : clampSize (some (clampSize s)) = clampSize s := by
  cases s with
  | none => simp [clampSize]
  | some v => simp [clampSize, Nat.min_assoc]

theorem clampNumInst_idem (ss : Bool) (n : Option Nat) :
    clampNumInst ss (clampNumInst ss n) = clampNumInst ss n := by
  cases n with
  | none =>
    cases ss <;> simp [clampNumInst, VEX_IRSB_MAX_INST]
  | some v => simp [clampNumInst, Nat.min_assoc]

theorem liftPre_clamped (eng0 : Engine) (archName : String) (isArm : Bool)
    (stOpts : List SimOption) (stIp : Nat) (a : LiftArgs) :
    liftPre eng0 archName isArm stOpts stIp
        { a with size := some (clampSize a.size),
                 numInst := clampNumInst (effSingleStep eng0 archName) a.numInst }
      = liftPre eng0 archName isArm stOpts stIp a := by
  unfold liftPre
  simp only [clampSize_idem, clampNumInst_idem]

/-- C8 counterexample: when no instruction cap is supplied and the engine is
not single-stepping, lift imposes no instruction cap at all (the cap stays
absent), so no effective instruction cap bounded by the absolute maximum
exists, contradicting the claim that every lift call bounds its effective
instruction cap at 99 instructions. -/
theorem C8_counterexample :
    clampNumInst false none = none
    ∧ ¬ ∃ k, clampNumInst false none = some k ∧ k ≤ VEX_IRSB_MAX_INST := by
  refine ⟨rfl, ?_⟩
  rintro ⟨k, hk, _⟩
  simp [clampNumInst] at hk

/-- C8 amended: lift clamps a caller-supplied size to the absolute maximum
block size of 400 bytes and defaults to that maximum when no size is
supplied; a caller-supplied instruction cap is clamped to the absolute
maximum of 99 instructions; an absent instruction cap becomes 1 under
single-stepping and otherwise no instruction cap is applied.  The lift entry
point depends on the size and instruction-cap arguments only through these
clamps: replacing them by their clamped values leaves every lift result
unchanged. -/
theorem C8_caps_clamped :
    (∀ s, clampSize s ≤ VEX_IRSB_MAX_SIZE)
    ∧ clampSize none = VEX_IRSB_MAX_SIZE
    ∧ (∀ v, clampSize (some v) = min v VEX_IRSB_MAX_SIZE)
    ∧ (∀ ss n, clampNumInst ss (some n) = some (min n VEX_IRSB_MAX_INST))
    ∧ (∀ n, min n VEX_IRSB_MAX_INST ≤ VEX_IRSB_MAX_INST)
    ∧ (∀ ss, clampNumInst ss none = if ss then some 1 else none)
    ∧ (∀ loadB lifter eng0 archName isArm stOpts stIp a,
        lift loadB lifter eng0 archName isArm stOpts stIp
            { a with size := some (clampSize a.size),
                     numInst := clampNumInst (effSingleStep eng0 archName) a.numInst }
          = lift loadB lifter eng0 archName isArm stOpts stIp a) := by
  refine ⟨?_, rfl, fun v => rfl, fun ss n => rfl, ?_, fun ss => rfl, ?_⟩
  · intro s
    cases s with
    | none => simp [clampSize]
    | some v => simp [clampSize]
  · intro n
    exact Nat.min_le_right n VEX_IRSB_MAX_INST
  · intro loadB lifter eng0 archName isArm stOpts stIp a
    unfold lift
    rw [liftPre_clamped]

theorem cacheLookup_touch (c : List (CacheKey × StateModel.Block)) (k k2 : CacheKey) :
    cacheLookup (cacheTouch c k) k2 = cacheLookup c k2 := by
  unfold cacheTouch cacheLookup
  cases hl : alookup c k with
  | none => rfl
  | some b =>
    by_cases he : k = k2
    · subst he
      simp [alookup, hl]
    · simp [alookup, he, alookup_aeraseKey_ne c k k2 he]

theorem cacheLookup_store_self (c : List (CacheKey × StateModel.Block)) (k : CacheKey)
    (b : StateModel.Block) (n : Nat) (hn : 1 ≤ n) :
    cacheLookup (cacheStore c k b n) k = some b := by
  unfold cacheStore cacheLookup
  obtain ⟨m, rfl⟩ : ∃ m, n = m + 1 := ⟨n - 1, by omega⟩
  simp [List.take, alookup]

theorem cacheLookup_store_ne_head (rest : List (CacheKey × StateModel.Block))
    (k1 k2 : CacheKey) (b1 b : StateModel.Block) (n : Nat) (hn : 2 ≤ n) (hne : k2 ≠ k1) :
    cacheLookup (cacheStore ((k1, b1) :: rest) k2 b n) k1 = some b1 := by
  unfold cacheStore cacheLookup
  obtain ⟨m, rfl⟩ : ∃ m, n = m + 2 := ⟨n - 2, by omega⟩
  have hk : ¬ (k1 = k2) := fun h => hne h.symm
  simp [aeraseKey, hk, List.take, alookup, hne]

theorem liftFresh_ok (loadB : Nat → Nat → List Nat × Nat)
    (lifter : List Nat → Nat → Nat → Option Nat → Nat → Int → Option StateModel.Block)
    (eng : Engine) (stOpts : List SimOption) (addr : Nat) (insnBytes : Option (List Nat))
    (size0 : Nat) (numInst : Option Nat) (thumb : Nat) (optLevel : Int) (cacheKey : CacheKey)
    (b : StateModel.Block) (e : Engine) (o : List SimOption)
    (h : liftFresh loadB lifter eng stOpts addr insnBytes size0 numInst thumb optLevel cacheKey
          = Except.ok (b, e, o)) :
    o = stOpts ∧ e = storeIfCaching eng cacheKey b := by
  unfold liftFresh at h
  repeat'
    first
      | split at h
      | dsimp only at h
  all_goals
    first
      | exact Except.noConfusion h
      | (injection h with h3
         injection h3 with hb h4
         injection h4 with he2 ho
         subst hb
         subst ho
         exact ⟨rfl, he2.symm⟩)

theorem liftPre_eng (eng0 : Engine) (archName : String) (isArm : Bool)
    (stOpts : List SimOption) (stIp : Nat) (a : LiftArgs) :
    (liftPre eng0 archName isArm stOpts stIp a).eng
      = { eng0 with singleStep := effSingleStep eng0 archName } := rfl

theorem liftPre_stOpts_eq (eng0 : Engine) (archName : String) (isArm : Bool)
    (stOpts : List SimOption) (stIp : Nat) (a : LiftArgs) :
    (liftPre eng0 archName isArm stOpts stIp a).stOpts
      = (smcAdjust { eng0 with singleStep := effSingleStep eng0 archName } stOpts
          (resolveOptLevel { eng0 with singleStep := effSingleStep eng0 archName }
            stOpts a.optLevel)).2 := rfl

theorem liftPre_optLevel_eq (eng0 : Engine) (archName : String) (isArm : Bool)
    (stOpts : List SimOption) (stIp : Nat) (a : LiftArgs) :
    (liftPre eng0 archName isArm stOpts stIp a).optLevel
      = (smcAdjust { eng0 with singleStep := effSingleStep eng0 archName } stOpts
          (resolveOptLevel { eng0 with singleStep := effSingleStep eng0 archName }
            stOpts a.optLevel)).1 := rfl

theorem liftPre_addr_eq (eng0 : Engine) (archName : String) (isArm : Bool)
    (stOpts : List SimOption) (stIp : Nat) (a : LiftArgs) :
    (liftPre eng0 archName isArm stOpts stIp a).addr
      = (thumbNormalize isArm (a.addr.getD stIp) a.thumb).1 := rfl

theorem liftPre_thumb_eq (eng0 : Engine) (archName : String) (isArm : Bool)
    (stOpts : List SimOption) (stIp : Nat) (a : LiftArgs) :
    (liftPre eng0 archName isArm stOpts stIp a).thumb
      = (thumbNormalize isArm (a.addr.getD stIp) a.thumb).2 := rfl

theorem liftPre_size_eq (eng0 : Engine) (archName : String) (isArm : Bool)
    (stOpts : List SimOption) (stIp : Nat) (a : LiftArgs) :
    (liftPre eng0 archName isArm stOpts stIp a).size = clampSize a.size := rfl

theorem liftPre_numInst_eq (eng0 : Engine) (archName : String) (isArm : Bool)
    (stOpts : List SimOption) (stIp : Nat) (a : LiftArgs) :
    (liftPre eng0 archName isArm stOpts stIp a).numInst
      = clampNumInst (effSingleStep eng0 archName) a.numInst := by
  simp only [liftPre]

theorem liftPre_insnBytes_eq (eng0 : Engine) (archName : String) (isArm : Bool)
    (stOpts : List SimOption) (stIp : Nat) (a : LiftArgs) :
    (liftPre eng0 archName isArm stOpts stIp a).insnBytes = a.insnBytes := rfl

theorem PreOut.ext' (x y : PreOut) (h1 : x.eng = y.eng) (h2 : x.stOpts = y.stOpts)
    (h3 : x.addr = y.addr) (h4 : x.insnBytes = y.insnBytes) (h5 : x.size = y.size)
    (h6 : x.numInst = y.numInst) (h7 : x.thumb = y.thumb) (h8 : x.optLevel = y.optLevel) :
    x = y := by
  cases x
  cases y
  simp only at h1 h2 h3 h4 h5 h6 h7 h8
  subst h1
  subst h2
  subst h3
  subst h4
  subst h5
  subst h6
  subst h7
  subst h8
  rfl

theorem filter_optir_idem (l : List SimOption) :
    (l.filter (fun x => decide (x ≠ SimOption.OPTIMIZE_IR))).filter
        (fun x => decide (x ≠ SimOption.OPTIMIZE_IR))
      = l.filter (fun x => decide (x ≠ SimOption.OPTIMIZE_IR)) := by
  rw [List.filter_filter]
  simp

theorem optir_not_mem_filter (l : List SimOption) :
    SimOption.OPTIMIZE_IR ∉ l.filter (fun x => decide (x ≠ SimOption.OPTIMIZE_IR)) := by
  simp [List.mem_filter]

theorem smcAdjust_restable (engA : Engine) (stOpts : List SimOption) (aOpt : Option Int)
    (hd : 0 ≤ engA.defaultOptLevel) :
    smcAdjust engA (smcAdjust engA stOpts (resolveOptLevel engA stOpts aOpt)).2
        (resolveOptLevel engA (smcAdjust engA stOpts (resolveOptLevel engA stOpts aOpt)).2 aOpt)
      = smcAdjust engA stOpts (resolveOptLevel engA stOpts aOpt) := by
  by_cases hc : engA.supportSMC = true ∧ 0 < resolveOptLevel engA stOpts aOpt
  · have hstep : smcAdjust engA stOpts (resolveOptLevel engA stOpts aOpt)
        = (0, stOpts.filter (fun x => decide (x ≠ SimOption.OPTIMIZE_IR))) := by
      unfold smcAdjust
      rw [if_pos hc]
    rw [hstep]
    have hres2 : resolveOptLevel engA
        (stOpts.filter (fun x => decide (x ≠ SimOption.OPTIMIZE_IR))) aOpt
        = resolveOptLevel engA stOpts aOpt
        ∨ resolveOptLevel engA
            (stOpts.filter (fun x => decide (x ≠ SimOption.OPTIMIZE_IR))) aOpt
          = engA.defaultOptLevel := by
      cases aOpt with
      | some l => exact Or.inl rfl
      | none =>
        refine Or.inr ?_
        unfold resolveOptLevel
        rw [if_neg (optir_not_mem_filter stOpts)]
    rcases hres2 with hres2 | hres2
    · rw [hres2]
      unfold smcAdjust
      rw [if_pos hc]
      simp only
      rw [filter_optir_idem]
    · rw [hres2]
      unfold smcAdjust
      rcases lt_or_eq_of_le hd with hpos | hzero
      · rw [if_pos ⟨hc.1, hpos⟩]
        simp only
        rw [filter_optir_idem]
      · rw [if_neg (fun hcc => absurd hcc.2 (by rw [← hzero]; exact lt_irrefl 0))]
        rw [← hzero]
  · have hstep : smcAdjust engA stOpts (resolveOptLevel engA stOpts aOpt)
        = (resolveOptLevel engA stOpts aOpt, stOpts) := by
      unfold smcAdjust
      rw [if_neg hc]
    rw [hstep]
    unfold smcAdjust
    rw [if_neg hc]

/-- The optimization-level resolution reads only the default level of the
engine. -/
theorem resolveOptLevel_congr (engB engA : Engine)
    (h : engB.defaultOptLevel = engA.defaultOptLevel) (stOpts : List SimOption)
    (aOpt : Option Int) :
    resolveOptLevel engB stOpts aOpt = resolveOptLevel engA stOpts aOpt := by
  unfold resolveOptLevel
  cases aOpt with
  | some l => rfl
  | none => rw [h]

/-- The self-modifying-code adjustment reads only the self-modification
support flag of the engine. -/
theorem smcAdjust_congr (engB engA : Engine) (h : engB.supportSMC = engA.supportSMC)
    (stOpts : List SimOption) (lvl : Int) :
    smcAdjust engB stOpts lvl = smcAdjust engA stOpts lvl := by
  unfold smcAdjust
  rw [h]

/-- Re-running the MIPS single-step check on an engine whose single-step flag
already is the effective one changes nothing. -/
theorem effSingleStep_stable (eng0 e1 : Engine) (archName : String)
    (h : e1.singleStep = effSingleStep eng0 archName) :
    effSingleStep e1 archName = effSingleStep eng0 archName := by
  unfold effSingleStep at h ⊢
  generalize strStartsWith archName "MIPS" = m at h ⊢
  cases m
  · exact h
  · rfl

/-- Stability of the parameter phases of lift: calling lift again on the
engine returned by a first call (same configuration fields, effective
single-step flag) with the state options the first call left behind reproduces
every computed parameter of the first call, under a nonnegative default
optimization level. -/
theorem liftPre_stable (eng0 e1 : Engine) (archName : String) (isArm : Bool)
    (stOpts : List SimOption) (stIp : Nat) (a : LiftArgs)
    (h1 : e1.supportSMC = eng0.supportSMC) (h2 : e1.defaultOptLevel = eng0.defaultOptLevel)
    (h3 : e1.singleStep = effSingleStep eng0 archName) (hd : 0 ≤ eng0.defaultOptLevel) :
    liftPre e1 archName isArm (liftPre eng0 archName isArm stOpts stIp a).stOpts stIp a
      = { eng := { e1 with singleStep := effSingleStep e1 archName }
          stOpts := (liftPre eng0 archName isArm stOpts stIp a).stOpts
          addr := (liftPre eng0 archName isArm stOpts stIp a).addr
          insnBytes := (liftPre eng0 archName isArm stOpts stIp a).insnBytes
          size := (liftPre eng0 archName isArm stOpts stIp a).size
          numInst := (liftPre eng0 archName isArm stOpts stIp a).numInst
          thumb := (liftPre eng0 archName isArm stOpts stIp a).thumb
          optLevel := (liftPre eng0 archName isArm stOpts stIp a).optLevel } := by
  have hss := effSingleStep_stable eng0 e1 archName h3
  have h1u : ({ e1 with singleStep := effSingleStep e1 archName } : Engine).supportSMC
      = ({ eng0 with singleStep := effSingleStep eng0 archName } : Engine).supportSMC := h1
  have h2u : ({ e1 with singleStep := effSingleStep e1 archName } : Engine).defaultOptLevel
      = ({ eng0 with singleStep := effSingleStep eng0 archName } : Engine).defaultOptLevel := h2
  apply PreOut.ext'
  · dsimp only
    rw [liftPre_eng]
  · dsimp only
    rw [liftPre_stOpts_eq e1]
    rw [resolveOptLevel_congr _ _ h2u]
    rw [smcAdjust_congr _ _ h1u]
    rw [liftPre_stOpts_eq eng0]
    exact congrArg Prod.snd (smcAdjust_restable _ stOpts a.optLevel hd)
  · dsimp only
    rw [liftPre_addr_eq, liftPre_addr_eq]
  · dsimp only
    rw [liftPre_insnBytes_eq, liftPre_insnBytes_eq]
  · dsimp only
    rw [liftPre_size_eq, liftPre_size_eq]
  · dsimp only
    rw [liftPre_numInst_eq, liftPre_numInst_eq, hss]
  · dsimp only
    rw [liftPre_thumb_eq, liftPre_thumb_eq]
  · dsimp only
    rw [liftPre_optLevel_eq e1]
    rw [resolveOptLevel_congr _ _ h2u]
    rw [smcAdjust_congr _ _ h1u]
    rw [liftPre_optLevel_eq eng0]
    exact congrArg Prod.fst (smcAdjust_restable _ stOpts a.optLevel hd)

/-- With caching enabled the phase-5 store updates the block cache. -/
theorem storeIfCaching_pos (eng : Engine) (k : CacheKey) (b : StateModel.Block)
    (h : eng.useCache = true) :
    storeIfCaching eng k b
      = { eng with blockCache := cacheStore eng.blockCache k b eng.cacheSize } := by
  unfold storeIfCaching
  rw [if_pos h]

/-- On a hit the LRU recency update moves the binding to the front. -/
theorem cacheTouch_pos (c : List (CacheKey × StateModel.Block)) (k : CacheKey) (b : StateModel.Block)
    (h : alookup c k = some b) : cacheTouch c k = (k, b) :: aeraseKey c k := by
  unfold cacheTouch
  rw [h]

/-- Invariant of a successful lift call with caching enabled and capacity at
least two: the returned options are the adjusted state options, the returned
engine keeps every configuration field, and the block cache maps the computed
key to the returned block, either directly or through the stop-point
truncated key. -/
theorem lift_ok_inv (loadB : Nat → Nat → List Nat × Nat)
    (lifter : List Nat → Nat → Nat → Option Nat → Nat → Int → Option StateModel.Block)
    (eng0 : Engine) (archName : String) (isArm : Bool) (stOpts : List SimOption)
    (stIp : Nat) (a : LiftArgs) (b : StateModel.Block) (e1 : Engine) (o1 : List SimOption)
    (huse : eng0.useCache = true) (hcap : 2 ≤ eng0.cacheSize)
    (h : lift loadB lifter eng0 archName isArm stOpts stIp a = Except.ok (b, e1, o1)) :
    o1 = (liftPre eng0 archName isArm stOpts stIp a).stOpts
    ∧ e1.useCache = eng0.useCache ∧ e1.cacheSize = eng0.cacheSize
    ∧ e1.supportSMC = eng0.supportSMC ∧ e1.defaultOptLevel = eng0.defaultOptLevel
    ∧ e1.stopPoints = eng0.stopPoints ∧ e1.singleStep = effSingleStep eng0 archName
    ∧ (cacheLookup e1.blockCache
        ⟨(liftPre eng0 archName isArm stOpts stIp a).addr,
         (liftPre eng0 archName isArm stOpts stIp a).insnBytes,
         (liftPre eng0 archName isArm stOpts stIp a).size,
         (liftPre eng0 archName isArm stOpts stIp a).numInst,
         (liftPre eng0 archName isArm stOpts stIp a).thumb,
         (liftPre eng0 archName isArm stOpts stIp a).optLevel⟩ = some b
       ∨ ∃ irsb sp,
         cacheLookup e1.blockCache
           ⟨(liftPre eng0 archName isArm stOpts stIp a).addr,
            (liftPre eng0 archName isArm stOpts stIp a).insnBytes,
            (liftPre eng0 archName isArm stOpts stIp a).size,
            (liftPre eng0 archName isArm stOpts stIp a).numInst,
            (liftPre eng0 archName isArm stOpts stIp a).thumb,
            (liftPre eng0 archName isArm stOpts stIp a).optLevel⟩ = some irsb
         ∧ firstStoppoint eng0.stopPoints irsb = some sp
         ∧ cacheLookup e1.blockCache
             ⟨(liftPre eng0 archName isArm stOpts stIp a).addr,
              (liftPre eng0 archName isArm stOpts stIp a).insnBytes,
              sp - (liftPre eng0 archName isArm stOpts stIp a).addr,
              (liftPre eng0 archName isArm stOpts stIp a).numInst,
              (liftPre eng0 archName isArm stOpts stIp a).thumb,
              (liftPre eng0 archName isArm stOpts stIp a).optLevel⟩ = some b) := by
  unfold lift at h
  dsimp only at h
  rw [liftPre_eng] at h
  dsimp only at h
  split at h
  · -- useCache true
    split at h
    next irsb hlk =>
      split at h
      next hfs =>
        -- hit, no stop point
        injection h with h2
        injection h2 with hb h3
        injection h3 with he ho
        subst hb
        subst he
        subst ho
        refine ⟨rfl, rfl, rfl, rfl, rfl, rfl, by dsimp only, Or.inl ?_⟩
        exact Eq.trans (cacheLookup_touch _ _ _) hlk
      next sp hfs =>
        split at h
        next irsb2 hlk2 =>
          -- hit, stop point, second hit
          injection h with h2
          injection h2 with hb h3
          injection h3 with he ho
          subst hb
          subst he
          subst ho
          refine ⟨rfl, rfl, rfl, rfl, rfl, rfl, by dsimp only, Or.inr ⟨irsb, sp, ?_, hfs, ?_⟩⟩
          · exact Eq.trans (cacheLookup_touch _ _ _)
              (Eq.trans (cacheLookup_touch _ _ _) hlk)
          · exact Eq.trans (cacheLookup_touch _ _ _) hlk2
        next hlk2 =>
          -- hit, stop point, second miss: fresh lift under the truncated key
          obtain ⟨ho, he⟩ := liftFresh_ok _ _ _ _ _ _ _ _ _ _ _ _ _ _ h
          rw [storeIfCaching_pos] at he
          · subst ho
            subst he
            refine ⟨rfl, rfl, rfl, rfl, rfl, rfl, by dsimp only, Or.inr ⟨irsb, sp, ?_, hfs, ?_⟩⟩
            · have hne : (⟨(liftPre eng0 archName isArm stOpts stIp a).addr,
                    (liftPre eng0 archName isArm stOpts stIp a).insnBytes,
                    sp - (liftPre eng0 archName isArm stOpts stIp a).addr,
                    (liftPre eng0 archName isArm stOpts stIp a).numInst,
                    (liftPre eng0 archName isArm stOpts stIp a).thumb,
                    (liftPre eng0 archName isArm stOpts stIp a).optLevel⟩ : CacheKey)
                  ≠ ⟨(liftPre eng0 archName isArm stOpts stIp a).addr,
                    (liftPre eng0 archName isArm stOpts stIp a).insnBytes,
                    (liftPre eng0 archName isArm stOpts stIp a).size,
                    (liftPre eng0 archName isArm stOpts stIp a).numInst,
                    (liftPre eng0 archName isArm stOpts stIp a).thumb,
                    (liftPre eng0 archName isArm stOpts stIp a).optLevel⟩ := by
                intro heq
                rw [heq, cacheLookup_touch] at hlk2
                rw [hlk] at hlk2
                exact Option.noConfusion hlk2
              show cacheLookup
                  (cacheStore
                    (cacheTouch eng0.blockCache
                      ⟨(liftPre eng0 archName isArm stOpts stIp a).addr,
                       (liftPre eng0 archName isArm stOpts stIp a).insnBytes,
                       (liftPre eng0 archName isArm stOpts stIp a).size,
                       (liftPre eng0 archName isArm stOpts stIp a).numInst,
                       (liftPre eng0 archName isArm stOpts stIp a).thumb,
                       (liftPre eng0 archName isArm stOpts stIp a).optLevel⟩)
                    ⟨(liftPre eng0 archName isArm stOpts stIp a).addr,
                     (liftPre eng0 archName isArm stOpts stIp a).insnBytes,
                     sp - (liftPre eng0 archName isArm stOpts stIp a).addr,
                     (liftPre eng0 archName isArm stOpts stIp a).numInst,
                     (liftPre eng0 archName isArm stOpts stIp a).thumb,
                     (liftPre eng0 archName isArm stOpts stIp a).optLevel⟩
                    b eng0.cacheSize)
                  ⟨(liftPre eng0 archName isArm stOpts stIp a).addr,
                   (liftPre eng0 archName isArm stOpts stIp a).insnBytes,
                   (liftPre eng0 archName isArm stOpts stIp a).size,
                   (liftPre eng0 archName isArm stOpts stIp a).numInst,
                   (liftPre eng0 archName isArm stOpts stIp a).thumb,
                   (liftPre eng0 archName isArm stOpts stIp a).optLevel⟩ = some irsb
              rw [cacheTouch_pos _ _ _ hlk]
              exact cacheLookup_store_ne_head _ _ _ _ _ _ hcap hne
            · exact cacheLookup_store_self _ _ _ _ (Nat.le_of_succ_le hcap)
          · exact huse
    next hlk =>
      -- miss: fresh lift under the main key
      obtain ⟨ho, he⟩ := liftFresh_ok _ _ _ _ _ _ _ _ _ _ _ _ _ _ h
      rw [storeIfCaching_pos] at he
      · subst ho
        subst he
        refine ⟨rfl, rfl, rfl, rfl, rfl, rfl, by dsimp only, Or.inl ?_⟩
        exact cacheLookup_store_self _ _ _ _ (Nat.le_of_succ_le hcap)
      · exact huse
  · exact absurd huse (by assumption)

/-- C4: with caching enabled (capacity at least two, nonnegative default
optimization level), after a first lift call returns a block in which no stop
point falls strictly inside (no instruction mark after the first is a stop
point), a second lift call on the returned engine with the same arguments and
the returned state options returns the identical cached block instance: it is
a pure cache hit, recording no new miss and at least one new hit, and
returning the very block object the first call stored. -/
theorem C4_cache_hit (loadB : Nat → Nat → List Nat × Nat)
    (lifter : List Nat → Nat → Nat → Option Nat → Nat → Int → Option StateModel.Block)
    (eng0 : Engine) (archName : String) (isArm : Bool) (stOpts : List SimOption)
    (stIp : Nat) (a : LiftArgs) (b : StateModel.Block) (e1 : Engine) (o1 : List SimOption)
    (huse : eng0.useCache = true) (hcap : 2 ≤ eng0.cacheSize)
    (hd : 0 ≤ eng0.defaultOptLevel)
    (h : lift loadB lifter eng0 archName isArm stOpts stIp a = Except.ok (b, e1, o1))
    (hsp : firstStoppoint eng0.stopPoints b = none) :
    ∃ e2, lift loadB lifter e1 archName isArm o1 stIp a = Except.ok (b, e2, o1)
      ∧ e2.cacheMisses = e1.cacheMisses ∧ e1.cacheHits < e2.cacheHits := by
  obtain ⟨ho1, hu, hcs, hsm, hdl, hstp, hss1, hcache⟩ :=
    lift_ok_inv loadB lifter eng0 archName isArm stOpts stIp a b e1 o1 huse hcap h
  subst ho1
  have hstable := liftPre_stable eng0 e1 archName isArm stOpts stIp a hsm hdl hss1 hd
  unfold lift
  dsimp only
  rw [hstable]
  dsimp only
  rw [if_pos (hu.trans huse)]
  rcases hcache with hlkb | ⟨irsb, sp, hlk, hfs, hlk2⟩
  · rw [hlkb]
    dsimp only
    rw [hstp, hsp]
    dsimp only
    refine ⟨_, rfl, ?_, ?_⟩
    · dsimp only
    · dsimp only
      exact Nat.lt_succ_self _
  · rw [hlk]
    dsimp only
    rw [hstp, hfs]
    dsimp only
    rw [cacheLookup_touch]
    rw [hlk2]
    dsimp only
    refine ⟨_, rfl, ?_, ?_⟩
    · dsimp only
    · dsimp only
      omega

/-- Witness for C4 on a concrete engine, block and argument set: the first
call misses and stores the block, the second call is a pure cache hit. -/
theorem C4_cache_hit_witness :
    ∃ e2, lift loadBC4 lifterC4 e1C4 "AMD64" false [] 4096 aC4 = Except.ok (blkC4, e2, [])
      ∧ e2.cacheMisses = e1C4.cacheMisses ∧ e1C4.cacheHits < e2.cacheHits :=
  C4_cache_hit loadBC4 lifterC4 engC4 "AMD64" false [] 4096 aC4 blkC4 e1C4 []
    (by decide) (by decide) (by decide) (by rfl) (by rfl)
